import Mathlib

/-!
# Ecosystem simulation (`Simulation/scripts/ecosystem.js`)

A shallow embedding of the script's two classes (`Organism`, `Food`) and of the
frame function `animate`, followed by theorems about them.

Numbers.  The script computes with JavaScript numbers.  The embedding is
generic in an ordered field `K` (instantiated with `ℚ` for concrete
evaluations), so all arithmetic is exact; rounding, `NaN` and the infinities
are outside the model.  Where the script rounds a sum or a product to a double
the embedding has the exact value, so a statement that an arithmetic expression
of the script has a given exact value or bound holds for the script only up to
that rounding.

Host functions.  `Math.hypot`, `Math.atan2`, `Math.cos`, `Math.sin`, `Math.PI`
and the canvas size come from the host; they are parameters (`MathLib`,
`Canvas`).  Every call of `Math.random()` is an explicit argument (`Draws`).

Mutation.  Methods mutate `this` and the two shared arrays.  A method is
embedded as a function from the values before the call to the values after it;
an uncaught `TypeError` is the `Except` error.
-/

namespace Ecosystem

/-- Host mathematics used by the script: `Math.hypot`, `Math.atan2`, `Math.cos`,
`Math.sin` and `Math.PI`. -/
structure MathLib (K : Type) where
  hypot : K → K → K
  atan2 : K → K → K
  cos : K → K
  sin : K → K
  pi : K

/-- Size of the drawing surface: `canvas.width` and `canvas.height`. -/
structure Canvas (K : Type) where
  width : K
  height : K

/-- Uncaught exceptions the script can raise. -/
inductive Fault where
  /-- The `TypeError` of `reduce` on an empty array with no initial value (line 57). -/
  | reduceOfEmptyArray
  /-- The `TypeError` of calling a method on `undefined` (line 273). -/
  | undefinedOrganism
  deriving DecidableEq, Repr

/-- Fields of a `Food` object (lines 192-199). -/
structure Food (K : Type) where
  x : K
  y : K
  radius : K
  color : String
  growthRate : K
  replicationThreshold : K
  deriving DecidableEq

/-- Fields of an `Organism` object (lines 14-29). -/
structure Organism (K : Type) where
  x : K
  y : K
  radius : K
  maxLastEaten : K
  lastEaten : K
  reproductionCooldown : K
  reproductionTimer : K
  reproductionChance : K
  extraReproductionChance : K
  canReproduce : Bool
  isFull : Bool
  dx : K
  dy : K
  deriving DecidableEq

/-- Values returned by the calls of `Math.random()` that one call of
`Organism.move` can make, in program order: the reproduction test (line 106),
the two offsets and the bonus test of `reproduce` (lines 159, 160, 163), and the
two velocity draws of each `new Organism` executed (lines 27-28): `vx1, vy1` for
the first constructor call that runs, `vx2, vy2` for the second. -/
structure Draws (K : Type) where
  trigger : K
  offX : K
  offY : K
  extra : K
  vx1 : K
  vy1 : K
  vx2 : K
  vy2 : K

/-- The two shared arrays `foodItems` and `organisms` (lines 234, 237). -/
structure World (K : Type) where
  foodItems : List (Food K)
  organisms : List (Organism K)

section Defs

variable {K : Type} [LinearOrderedField K]

/-- Line 6. -/
def FOV_RADIUS : K := 50

/-- Line 7. -/
def STARVATION_TIME : K := 500

/-- Line 8. -/
def REPRODUCTION_CHANCE : K := 3 / 100

/-- Line 9. -/
def EXTRA_REPRODUCTION_CHANCE : K := 1 / 100

/-- Line 10. -/
def REPRODUCTION_COOLDOWN : K := 600

/-- The `Food` constructor (lines 192-199). -/
def Food.new (x y radius : K) (color : String) : Food K :=
  { x := x, y := y, radius := radius, color := color,
    growthRate := 1 / 100, replicationThreshold := 10 }

/-- The `Organism` constructor (lines 14-29); `r1`, `r2` are its two random
draws. -/
def Organism.new (x y radius maxLastEaten reproductionCooldown r1 r2 : K) :
    Organism K :=
  { x := x, y := y, radius := radius, maxLastEaten := maxLastEaten,
    lastEaten := 0, reproductionCooldown := reproductionCooldown,
    reproductionTimer := 0, reproductionChance := REPRODUCTION_CHANCE,
    extraReproductionChance := EXTRA_REPRODUCTION_CHANCE,
    canReproduce := false, isFull := false,
    dx := r1 * 2 - 1, dy := r2 * 2 - 1 }

/-! ### Food -/

/-- The method `grow` (lines 211-213).  The sum is exact here; the script rounds
it to a double. -/
def Food.grow (f : Food K) : Food K :=
  { f with radius := f.radius + f.growthRate }

/-- The method `replicate` (lines 216-230): `r` is the random draw, the result
is the food object and the `foodItems` array after the call.  The products and
sums are exact here; the script rounds each to a double. -/
def Food.replicate (M : MathLib K) (r : K) (f : Food K)
    (foodItems : List (Food K)) : Food K × List (Food K) :=
  if f.radius ≥ f.replicationThreshold then
    let angle := r * M.pi * 2
    let distance := f.radius * 2
    let newX := f.x + M.cos angle * distance
    let newY := f.y + M.sin angle * distance
    let newRadius : K := 3
    let newColor := f.color
    ({ f with radius := f.radius / 2 },
      foodItems ++ [Food.new newX newY newRadius newColor])
  else (f, foodItems)

/-! ### Organism.move, block by block -/

/-- Body of the callback of the scan of lines 38-44; the accumulator is
`(closestFood, closestDistance)`. -/
def Organism.scanStep (M : MathLib K) (o : Organism K)
    (acc : Option (Food K) × K) (food : Food K) : Option (Food K) × K :=
  let dist := M.hypot (o.x - food.x) (o.y - food.y)
  if dist < acc.2 then (some food, dist) else acc

/-- Lines 35-44: the value of `closestFood` after the `forEach`. -/
def Organism.scan (M : MathLib K) (o : Organism K) (foodItems : List (Food K)) :
    Option (Food K) :=
  (foodItems.foldl (o.scanStep M) (none, FOV_RADIUS)).1

/-- Lines 35-54: the branch taken when the organism is not full. -/
def Organism.seek (M : MathLib K) (o : Organism K) (foodItems : List (Food K)) :
    Organism K :=
  match o.scan M foodItems with
  | some closestFood =>
    let angle := M.atan2 (closestFood.y - o.y) (closestFood.x - o.x)
    { o with dx := M.cos angle, dy := M.sin angle }
  | none => o

/-- Callback of the `reduce` of lines 57-62. -/
def Organism.closer (M : MathLib K) (o : Organism K) (closest current : Food K) :
    Food K :=
  let dist := M.hypot (o.x - current.x) (o.y - current.y)
  if dist < M.hypot (o.x - closest.x) (o.y - closest.y) then current else closest

/-- Lines 57-62: `foodItems.reduce(callback)` without an initial value; it
throws on an empty array and otherwise starts from the first element. -/
def Organism.nearest (M : MathLib K) (o : Organism K) :
    List (Food K) → Except Fault (Food K)
  | [] => .error .reduceOfEmptyArray
  | first :: rest => .ok (rest.foldl (o.closer M) first)

/-- Lines 56-66: the branch taken when the organism is full. -/
def Organism.flee (M : MathLib K) (o : Organism K) (foodItems : List (Food K)) :
    Except Fault (Organism K) :=
  match o.nearest M foodItems with
  | .error e => .error e
  | .ok closestFood =>
    let angle := M.atan2 (o.y - closestFood.y) (o.x - closestFood.x)
    .ok { o with dx := M.cos angle, dy := M.sin angle }

/-- Lines 34-67: the targeting step. -/
def Organism.target (M : MathLib K) (o : Organism K) (foodItems : List (Food K)) :
    Except Fault (Organism K) :=
  if !o.isFull then .ok (o.seek M foodItems) else o.flee M foodItems

/-- Lines 70-71: the position update.  The sums are exact here; the script
rounds each to a double. -/
def Organism.advance (o : Organism K) : Organism K :=
  { o with x := o.x + o.dx, y := o.y + o.dy }

/-- Lines 74-79: the two edge tests. -/
def Organism.bounce (cv : Canvas K) (o : Organism K) : Organism K :=
  let o1 := if o.x + o.radius > cv.width ∨ o.x - o.radius < 0
    then { o with dx := -o.dx } else o
  if o1.y + o1.radius > cv.height ∨ o1.y - o1.radius < 0
    then { o1 with dy := -o1.dy } else o1

/-- Lines 82-89: `foodItems.forEach` whose callback splices the array.  The
number of iterations is the length read before the first one; an index that is
no longer in the array is skipped.  `n` counts the iterations left and `k` is
the index. -/
def Organism.eatLoop (M : MathLib K) :
    Nat → Nat → Organism K → List (Food K) → Organism K × List (Food K)
  | 0, _, o, foodItems => (o, foodItems)
  | n + 1, k, o, foodItems =>
    match foodItems[k]? with
    | none => Organism.eatLoop M n (k + 1) o foodItems
    | some food =>
      let dist := M.hypot (o.x - food.x) (o.y - food.y)
      if dist < o.radius + food.radius ∧ o.isFull = false then
        Organism.eatLoop M n (k + 1) { o with lastEaten := 0, isFull := true }
          (foodItems.eraseIdx k)
      else Organism.eatLoop M n (k + 1) o foodItems

/-- Lines 82-89: the eating step. -/
def Organism.eat (M : MathLib K) (o : Organism K) (foodItems : List (Food K)) :
    Organism K × List (Food K) :=
  Organism.eatLoop M foodItems.length 0 o foodItems

/-- Line 92. -/
def Organism.tickHunger (o : Organism K) : Organism K :=
  { o with lastEaten := o.lastEaten + 1 }

/-- Lines 95-101: the reproduction cooldown timer. -/
def Organism.cooldown (o : Organism K) : Organism K :=
  if o.canReproduce = false then
    let o1 := { o with reproductionTimer := o.reproductionTimer + 1 }
    if o1.reproductionTimer ≥ o1.reproductionCooldown then
      { o1 with canReproduce := true, reproductionTimer := 0 }
    else o1
  else o

/-- The method `reproduce` (lines 157-187): the result is the parent and the
`organisms` array after the call. -/
def Organism.reproduce (d : Draws K) (o : Organism K)
    (organisms : List (Organism K)) : Organism K × List (Organism K) :=
  let newRadius : K := 5
  let newX := o.x + (d.offX * 20 - 10)
  let newY := o.y + (d.offY * 20 - 10)
  if d.extra < o.extraReproductionChance then
    let organisms1 := organisms ++
      [Organism.new newX newY newRadius o.maxLastEaten o.reproductionCooldown
        d.vx1 d.vy1]
    let organisms2 := organisms1 ++
      [Organism.new newX newY newRadius o.maxLastEaten o.reproductionCooldown
        d.vx2 d.vy2]
    ({ o with canReproduce := false }, organisms2)
  else
    let organisms1 := organisms ++
      [Organism.new newX newY newRadius o.maxLastEaten o.reproductionCooldown
        d.vx1 d.vy1]
    ({ o with canReproduce := false }, organisms1)

/-- Lines 104-111: the reproduction test and the call of `reproduce`. -/
def Organism.tryReproduce (d : Draws K) (o : Organism K)
    (organisms : List (Organism K)) : Organism K × List (Organism K) :=
  if o.lastEaten < o.maxLastEaten / 2 ∧ d.trigger < o.reproductionChance ∧
      o.canReproduce = true then
    let r := o.reproduce d organisms
    ({ r.1 with canReproduce := false }, r.2)
  else (o, organisms)

/-- Lines 114-116. -/
def Organism.maturity (o : Organism K) : Organism K :=
  if o.radius > 10 then { o with canReproduce := true } else o

/-- Lines 119-126: the fullness counter. -/
def Organism.digest (o : Organism K) : Organism K :=
  if o.isFull = true then
    let o1 := { o with lastEaten := o.lastEaten + 1 }
    if o1.lastEaten ≥ 300 then { o1 with isFull := false, lastEaten := 0 }
    else o1
  else o

/-- The method `move` (lines 32-127): from the organism and the two arrays
before the call to the organism and the two arrays after it. -/
def Organism.move (cv : Canvas K) (M : MathLib K) (d : Draws K) (o : Organism K)
    (foodItems : List (Food K)) (organisms : List (Organism K)) :
    Except Fault (Organism K × List (Food K) × List (Organism K)) :=
  match o.target M foodItems with
  | .error e => .error e
  | .ok o1 =>
    let o2 := (o1.advance).bounce cv
    let fed := o2.eat M foodItems
    let o4 := (fed.1.tickHunger).cooldown
    let born := o4.tryReproduce d organisms
    .ok (((born.1).maturity).digest, fed.2, born.2)

/-- The method `isStarved` (lines 152-154). -/
def Organism.isStarved (o : Organism K) : Bool :=
  decide (o.lastEaten > o.maxLastEaten)

/-! ### The frame function -/

/-- Lines 264-268: `foodItems.forEach` whose callback may push to the array.
`n` counts the iterations left, `k` is the index, `rs k` the draw of that
iteration.  (`draw` changes no state.) -/
def foodLoop (M : MathLib K) (rs : Nat → K) :
    Nat → Nat → List (Food K) → List (Food K)
  | 0, _, foodItems => foodItems
  | n + 1, k, foodItems =>
    match foodItems[k]? with
    | none => foodLoop M rs n (k + 1) foodItems
    | some food =>
      let r := (food.grow).replicate M (rs k) foodItems
      foodLoop M rs n (k + 1) (r.2.set k r.1)

/-- Lines 264-268: the food pass of `animate`. -/
def foodPass (M : MathLib K) (rs : Nat → K) (foodItems : List (Food K)) :
    List (Food K) :=
  foodLoop M rs foodItems.length 0 foodItems

/-- Record of one iteration of the loop of lines 271-279, kept beside the state
for the statements below: the index `i`, the object read at that index before
`move`, the same object after `move`, and the objects `move` pushed. -/
structure Visit (K : Type) where
  index : Nat
  before : Organism K
  after : Organism K
  born : List (Organism K)

/-- Lines 271-279: the loop `for (let i = organisms.length - 1; i >= 0; i--)`,
entered with `i + 1 = n`.  `ds i` are the draws of the iteration with index
`i`.  The second component collects the iterations made, oldest first. -/
def organismLoop (cv : Canvas K) (M : MathLib K) (ds : Nat → Draws K) :
    Nat → World K × List (Visit K) → Except Fault (World K × List (Visit K))
  | 0, s => .ok s
  | i + 1, s =>
    match s.1.organisms[i]? with
    | none => .error .undefinedOrganism
    | some organism =>
      match organism.move cv M (ds i) s.1.foodItems s.1.organisms with
      | .error e => .error e
      | .ok r =>
        let written := r.2.2.set i r.1
        let visit : Visit K :=
          { index := i, before := organism, after := r.1,
            born := r.2.2.drop s.1.organisms.length }
        if r.1.isStarved = true then
          organismLoop cv M ds i
            ({ foodItems := r.2.1, organisms := written.eraseIdx i },
              s.2 ++ [visit])
        else
          organismLoop cv M ds i
            ({ foodItems := r.2.1, organisms := written }, s.2 ++ [visit])

/-- Lines 271-279: the organism pass of `animate`, with its record. -/
def organismPassLog (cv : Canvas K) (M : MathLib K) (ds : Nat → Draws K)
    (w : World K) : Except Fault (World K × List (Visit K)) :=
  organismLoop cv M ds w.organisms.length (w, [])

/-- Lines 271-279: the organism pass of `animate`. -/
def organismPass (cv : Canvas K) (M : MathLib K) (ds : Nat → Draws K)
    (w : World K) : Except Fault (World K) :=
  match organismPassLog cv M ds w with
  | .error e => .error e
  | .ok r => .ok r.1

/-- The function `animate` (lines 260-282) up to the request for the next
frame: the food pass, then the organism pass. -/
def animate (cv : Canvas K) (M : MathLib K) (rs : Nat → K) (ds : Nat → Draws K)
    (w : World K) : Except Fault (World K) :=
  organismPass cv M ds { w with foodItems := foodPass M rs w.foodItems }

end Defs

/-- The host functions on the positive x-axis, over `ℚ`, for the concrete
evaluations below: `hypot a b = |a| + |b|` is `Math.hypot` whenever `a = 0` or
`b = 0`; `atan2 0 a = 0` for `a ≥ 0`; `cos 0 = 1`; `sin 0 = 0`.  Every concrete
evaluation in this file places all objects on one horizontal line and only
calls the functions at such arguments; `pi` is only ever multiplied by a zero
draw. -/
def axisMath : MathLib ℚ :=
  { hypot := fun a b => |a| + |b|
    atan2 := fun _ _ => 0
    cos := fun _ => 1
    sin := fun _ => 0
    pi := 22 / 7 }

/-- An 800 by 600 drawing surface. -/
def canvas0 : Canvas ℚ := { width := 800, height := 600 }

/-- Draws that are all zero. -/
def zeroDraws : Draws ℚ :=
  { trigger := 0, offX := 0, offY := 0, extra := 0,
    vx1 := 0, vy1 := 0, vx2 := 0, vy2 := 0 }

/-- A newly constructed organism of radius 5 at (100, 100) with both velocity
draws 1/2, so that its initial heading is (0, 0). -/
def org0 : Organism ℚ := Organism.new 100 100 5 500 600 (1 / 2) (1 / 2)

/-- A green food item of radius 3 at (x, 100). -/
def foodAt (x : ℚ) : Food ℚ := Food.new x 100 3 "green"

/-- The organism `org0` in the full state with hunger timer `t`. -/
def fullOrg (t : ℚ) : Organism ℚ := { org0 with isFull := true, lastEaten := t }

/-- The organism `o` one unit step to the right of x = 100, heading (1, 0), with
one tick of the cooldown timer. -/
def stepped (o : Organism ℚ) : Organism ℚ :=
  { o with x := 101, reproductionTimer := 1, dx := 1, dy := 0 }

/-- A green food item of radius 9.99 at (100, 100). -/
def ripeFood : Food ℚ := Food.new 100 100 (999 / 100) "green"

/-- A newly constructed organism of radius 5 at (795, 100): its circle touches
the right edge of `canvas0`. -/
def wallOrg : Organism ℚ := Organism.new 795 100 5 500 600 (1 / 2) (1 / 2)

/-- Invariant of the scan of lines 38-44 over the items `seen` so far: the
accumulator holds an item exactly when its distance is below the field of view,
that item is one of `seen` at the recorded distance, and no item of `seen` is
closer than the recorded distance. -/
def ScanInv {K : Type} [LinearOrderedField K] (M : MathLib K) (o : Organism K)
    (seen : List (Food K)) (acc : Option (Food K) × K) : Prop :=
  (∀ f, acc.1 = some f →
    f ∈ seen ∧ M.hypot (o.x - f.x) (o.y - f.y) = acc.2 ∧ acc.2 < FOV_RADIUS) ∧
  (acc.1 = none → acc.2 = FOV_RADIUS) ∧
  (∀ g ∈ seen, acc.2 ≤ M.hypot (o.x - g.x) (o.y - g.y))

/-- The organism `org0` one `move` before starving: hunger timer 500. -/
def starving : Organism ℚ := { org0 with lastEaten := 500 }

/-- The organism `org0` ready to reproduce. -/
def breeder : Organism ℚ := { org0 with canReproduce := true }

/-- The offspring of `breeder` under `zeroDraws`. -/
def kid0 : Organism ℚ := Organism.new 90 90 5 500 600 0 0

/-- A world without food and with three organisms. -/
def world0 : World ℚ := { foodItems := [], organisms := [org0, starving, breeder] }

/-- The world `world0` after one organism pass under `zeroDraws`. -/
def world1 : World ℚ :=
  { foodItems := [],
    organisms := [{ org0 with lastEaten := 1, reproductionTimer := 1 },
      { org0 with lastEaten := 1 }, kid0, kid0] }

/-- The iterations of the organism pass from `world0` under `zeroDraws`. -/
def visits0 : List (Visit ℚ) :=
  [{ index := 2, before := breeder, after := { org0 with lastEaten := 1 },
     born := [kid0, kid0] },
   { index := 1, before := starving,
     after := { org0 with lastEaten := 501, reproductionTimer := 1 }, born := [] },
   { index := 0, before := org0,
     after := { org0 with lastEaten := 1, reproductionTimer := 1 }, born := [] }]

/-- A world with one organism and one food item within its reach. -/
def worldLastMeal : World ℚ := { foodItems := [foodAt 101], organisms := [org0] }

/-- The world `worldLastMeal` one frame later: the organism has eaten the item
and is full, and no food is left. -/
def worldNoFood : World ℚ :=
  { foodItems := [],
    organisms := [stepped { org0 with lastEaten := 2, isFull := true }] }

/-- The overlap test of line 84: the distance between the centres is below
the sum of the radii. -/
def Organism.touches {K : Type} [LinearOrderedField K] (M : MathLib K)
    (o : Organism K) (food : Food K) : Prop :=
  M.hypot (o.x - food.x) (o.y - food.y) < o.radius + food.radius

/-! ### The update as the spec lists it (section 4.2), steps 4 to 7 -/

/-- Spec step 4, first part: "increment hunger timer by 1 every frame". -/
def Spec.hungerTick {K : Type} [LinearOrderedField K] (o : Organism K) : Organism K :=
  { o with lastEaten := o.lastEaten + 1 }

/-- Spec step 4, second part: "if full, increment it by one additional unit
that same frame and clear the full flag once this counter reaches a fixed
threshold (reinitializing hunger timer to 0 at that point)"; the threshold is
300. -/
def Spec.fullnessAccounting {K : Type} [LinearOrderedField K] (o : Organism K) :
    Organism K :=
  if o.isFull = true then
    if o.lastEaten + 1 ≥ 300 then { o with isFull := false, lastEaten := 0 }
    else { o with lastEaten := o.lastEaten + 1 }
  else o

/-- Spec step 4, "Hunger accounting", as one step: both parts in sequence. -/
def Spec.hungerAccounting {K : Type} [LinearOrderedField K] (o : Organism K) :
    Organism K :=
  Spec.fullnessAccounting (Spec.hungerTick o)

/-- Spec step 5, "Reproduction cooldown": "if not currently reproduction-ready,
increment a cooldown timer; once it reaches the configured cooldown length, set
ready=true and reset the timer". -/
def Spec.cooldownStep {K : Type} [LinearOrderedField K] (o : Organism K) : Organism K :=
  if o.canReproduce = true then o
  else if o.reproductionTimer + 1 ≥ o.reproductionCooldown then
    { o with canReproduce := true, reproductionTimer := 0 }
  else { o with reproductionTimer := o.reproductionTimer + 1 }

/-- Spec step 6, "Reproduction trigger": "if hunger timer is below half of
max-hunger-before-death AND a random draw succeeds against the reproduction
probability AND ready=true, invoke reproduction and clear ready". -/
def Spec.reproductionTrigger {K : Type} [LinearOrderedField K] (d : Draws K)
    (o : Organism K) (organisms : List (Organism K)) :
    Organism K × List (Organism K) :=
  if o.lastEaten < o.maxLastEaten / 2 ∧ d.trigger < o.reproductionChance ∧
      o.canReproduce = true then
    ({ (o.reproduce d organisms).1 with canReproduce := false },
      (o.reproduce d organisms).2)
  else (o, organisms)

/-- Spec step 7, "Maturity override": "if radius exceeds a fixed size threshold,
force ready=true unconditionally"; the threshold is 10. -/
def Spec.maturityOverride {K : Type} [LinearOrderedField K] (o : Organism K) :
    Organism K :=
  if 10 < o.radius then { o with canReproduce := true } else o

/-- The update in the order the spec lists its steps: 1 targeting, 2 movement,
3 eating, 4 hunger accounting, 5 reproduction cooldown, 6 reproduction trigger,
7 maturity override.  Steps 1 to 3 are the blocks of the code. -/
def Spec.update {K : Type} [LinearOrderedField K] (cv : Canvas K) (M : MathLib K)
    (d : Draws K) (o : Organism K) (foodItems : List (Food K))
    (organisms : List (Organism K)) :
    Except Fault (Organism K × List (Food K) × List (Organism K)) :=
  match o.target M foodItems with
  | .error e => .error e
  | .ok o1 =>
    let fed := ((o1.advance).bounce cv).eat M foodItems
    let born := Spec.reproductionTrigger d
      (Spec.cooldownStep (Spec.hungerAccounting fed.1)) organisms
    .ok (Spec.maturityOverride born.1, fed.2, born.2)

/-- The steps of the spec with the second part of step 4 moved to the end:
1 targeting, 2 movement, 3 eating, the increment of step 4, 5 reproduction
cooldown, 6 reproduction trigger, 7 maturity override, then the fullness part
of step 4. -/
def Spec.updateFullnessLast {K : Type} [LinearOrderedField K] (cv : Canvas K)
    (M : MathLib K) (d : Draws K) (o : Organism K) (foodItems : List (Food K))
    (organisms : List (Organism K)) :
    Except Fault (Organism K × List (Food K) × List (Organism K)) :=
  match o.target M foodItems with
  | .error e => .error e
  | .ok o1 =>
    let fed := ((o1.advance).bounce cv).eat M foodItems
    let born := Spec.reproductionTrigger d
      (Spec.cooldownStep (Spec.hungerTick fed.1)) organisms
    .ok (Spec.fullnessAccounting (Spec.maturityOverride born.1), fed.2, born.2)

/-- The organism `org0`, full, ready to reproduce, with hunger timer `t`. -/
def readyFull (t : ℚ) : Organism ℚ :=
  { org0 with isFull := true, lastEaten := t, canReproduce := true }

/-- The organism `o` one unit step to the right of x = 100, heading (1, 0). -/
def shifted (o : Organism ℚ) : Organism ℚ := { o with x := 101, dx := 1, dy := 0 }

/-- The offspring of an organism at (101, 100) under `zeroDraws`. -/
def kid1 : Organism ℚ := Organism.new 91 90 5 500 600 0 0

/-- The organism when the reproduction test of line 104 is evaluated, from the
organism `o1` left by the targeting step: after movement, eating, the increment
of line 92 and the cooldown block. -/
def Organism.atTrigger {K : Type} [LinearOrderedField K] (cv : Canvas K) (M : MathLib K)
    (o1 : Organism K) (foodItems : List (Food K)) : Organism K :=
  ((((o1.advance).bounce cv).eat M foodItems).1.tickHunger).cooldown

/-- A newly constructed organism of radius 11 at (100, 100), cooldown length
600. -/
def bigOrg : Organism ℚ := Organism.new 100 100 11 500 600 (1 / 2) (1 / 2)

/-- The organism `bigOrg` with hunger timer `t`, ready, cooldown timer 1. -/
def bigReady (t : ℚ) : Organism ℚ :=
  { bigOrg with lastEaten := t, canReproduce := true, reproductionTimer := 1 }

/-! ### Successive updates of one organism -/

/-- What one call of `move` on an organism finds: its draws and the two shared
arrays as they are when the call is made. -/
structure StepInput (K : Type) where
  draws : Draws K
  foodItems : List (Food K)
  organisms : List (Organism K)

/-- The organism after its first `n` calls of `move`; the call number `k`
(counted from 0) finds `ins k`.  Between its calls the fields of an organism
are not written: the food pass and the calls of `move` on other organisms only
write the two arrays. -/
def Organism.afterUpdates {K : Type} [LinearOrderedField K] (cv : Canvas K)
    (M : MathLib K) (ins : Nat → StepInput K) (o : Organism K) :
    Nat → Except Fault (Organism K)
  | 0 => .ok o
  | n + 1 =>
    match Organism.afterUpdates cv M ins o n with
    | .error e => .error e
    | .ok p =>
      match p.move cv M (ins n).draws (ins n).foodItems (ins n).organisms with
      | .error e => .error e
      | .ok r => .ok r.1

/-- The result of the call number `n` (counted from 0) of `move` on the
organism. -/
def Organism.updateAt {K : Type} [LinearOrderedField K] (cv : Canvas K)
    (M : MathLib K) (ins : Nat → StepInput K) (o : Organism K) (n : Nat) :
    Except Fault (Organism K × List (Food K) × List (Organism K)) :=
  match Organism.afterUpdates cv M ins o n with
  | .error e => .error e
  | .ok p => p.move cv M (ins n).draws (ins n).foodItems (ins n).organisms

/-- The call number `n` (counted from 0) completes and pushes offspring: the
`organisms` array it returns is not the one it found. -/
def Organism.reproducesAt {K : Type} [LinearOrderedField K] (cv : Canvas K)
    (M : MathLib K) (ins : Nat → StepInput K) (o : Organism K) (n : Nat) : Prop :=
  ∃ r, o.updateAt cv M ins n = .ok r ∧ r.2.2 ≠ (ins n).organisms

/-- Invariant of the cooldown block for an organism of radius at most 10 and
cooldown length `c`, `s` calls of `move` after its last reproduction (or after
its construction): while it is not ready the cooldown timer is `s`; once it is
ready the timer is 0 and `s` has reached `c`. -/
def CooldownInv {K : Type} [LinearOrderedField K] (c : K) (p : Organism K) (s : Nat) :
    Prop :=
  p.radius ≤ 10 ∧ p.reproductionCooldown = c ∧
  (p.canReproduce = false → p.reproductionTimer = (s : K)) ∧
  (p.canReproduce = true → p.reproductionTimer = 0 ∧ c ≤ (s : K))

/-- A newly constructed organism of radius 5 with cooldown length 2. -/
def quickOrg : Organism ℚ := Organism.new 100 100 5 500 2 (1 / 2) (1 / 2)

/-- Every call of `move` finds no food, one organism and `zeroDraws`. -/
def quietInputs : Nat → StepInput ℚ :=
  fun _ => { draws := zeroDraws, foodItems := [], organisms := [quickOrg] }

/-- The first call of `move` finds one food item within reach at x = 101; every
later call finds one item at x = 90, behind the organism. -/
def mealInputs : Nat → StepInput ℚ :=
  fun n =>
    if n = 0 then { draws := zeroDraws, foodItems := [foodAt 101], organisms := [org0] }
    else { draws := zeroDraws, foodItems := [foodAt 90], organisms := [org0] }

/-! ### Initialisation and reachable worlds -/

/-- Line 4. -/
def population : Nat := 20

/-- Line 5. -/
def foodCount : Nat := 50

/-- The four draws made for one initial organism, in program order: lines 242
and 243, then lines 27 and 28 of the constructor. -/
structure OrganismSeed (K : Type) where
  rx : K
  ry : K
  rdx : K
  rdy : K

/-- The two draws made for one initial food item (lines 253 and 254). -/
structure FoodSeed (K : Type) where
  rx : K
  ry : K

/-- Body of the loop of lines 240-248. -/
def initialOrganism {K : Type} [LinearOrderedField K] (cv : Canvas K)
    (s : OrganismSeed K) : Organism K :=
  let radius : K := 5
  let x := s.rx * (cv.width - radius * 2) + radius
  let y := s.ry * (cv.height - radius * 2) + radius
  let maxLastEaten : K := STARVATION_TIME
  Organism.new x y radius maxLastEaten REPRODUCTION_COOLDOWN s.rdx s.rdy

/-- Body of the loop of lines 251-257. -/
def initialFood {K : Type} [LinearOrderedField K] (cv : Canvas K) (s : FoodSeed K) :
    Food K :=
  let radius : K := 3
  let x := s.rx * (cv.width - radius * 2) + radius
  let y := s.ry * (cv.height - radius * 2) + radius
  Food.new x y radius "green"

/-- The two arrays after the loops of lines 240-257; `os i` and `fs i` are the
draws of the iteration `i` of each loop. -/
def initialWorld {K : Type} [LinearOrderedField K] (cv : Canvas K)
    (os : Nat → OrganismSeed K) (fs : Nat → FoodSeed K) : World K :=
  { foodItems := (List.range foodCount).map (fun i => initialFood cv (fs i)),
    organisms := (List.range population).map (fun i => initialOrganism cv (os i)) }

/-- The worlds reachable from initialisation by completed frames. -/
inductive Reachable {K : Type} [LinearOrderedField K] (cv : Canvas K) (M : MathLib K) :
    World K → Prop
  | init (os : Nat → OrganismSeed K) (fs : Nat → FoodSeed K) :
      Reachable cv M (initialWorld cv os fs)
  | frame (w w2 : World K) (rs : Nat → K) (ds : Nat → Draws K) :
      Reachable cv M w → animate cv M rs ds w = .ok w2 → Reachable cv M w2

/-- Draws that place every initial organism at (5, 5) with heading (0, 0). -/
def cornerOrganisms : Nat → OrganismSeed ℚ :=
  fun _ => { rx := 0, ry := 0, rdx := 1 / 2, rdy := 1 / 2 }

/-- Draws that place every initial food item at (5, 5). -/
def cornerFood : Nat → FoodSeed ℚ := fun _ => { rx := 1 / 397, ry := 1 / 297 }

/-- The world after the first frame from the initial world of `cornerOrganisms`
and `cornerFood` under zero draws: each organism has stepped to (6, 5) and
eaten one item. -/
def cornerWorld1 : World ℚ :=
  { foodItems := List.replicate 30 (Food.new 5 5 (301 / 100) "green"),
    organisms := List.replicate 20
      { Organism.new 6 5 5 500 600 (1 / 2) (1 / 2) with
        lastEaten := 2, isFull := true, reproductionTimer := 1, dx := 1, dy := 0 } }

/-- A food item as the constructor and the food pass leave it: growth rate
1/100, replication threshold 10, and radius from 3 up to, not including, 10. -/
def FoodOk {K : Type} [LinearOrderedField K] (f : Food K) : Prop :=
  3 ≤ f.radius ∧ f.radius < 10 ∧ f.growthRate = 1 / 100 ∧ f.replicationThreshold = 10

/-- The host values of a JavaScript engine at one angle, as exact rationals.
`Math.PI` is the double 3.141592653589793 = 884279719003555 / 2^48.  At the
angle 0.125 * Math.PI * 2 = 0.7853981633974483, `Math.cos` returns the double
0.7071067811865476 = 6369051672525773 / 2^53 and `Math.sin` the double
0.7071067811865475 = 1592262918131443 / 2^51.  `cos` and `sin` are only used at
this angle; `hypot` and `atan2` are not used with this host. -/
def hostAtEighth : MathLib ℚ :=
  { hypot := fun a b => |a| + |b|
    atan2 := fun _ _ => 0
    cos := fun _ => 6369051672525773 / 9007199254740992
    sin := fun _ => 1592262918131443 / 2251799813685248
    pi := 884279719003555 / 281474976710656 }

/-- The host values of a JavaScript engine at a second angle, as exact
rationals.  At the angle 0.000244140625 * Math.PI * 2 = 0.0015339807878856412,
`Math.cos` returns the double 0.9999988234517019 = 4503594328668019 / 2^52 and
`Math.sin` the double 0.0015339801862847655 = 7074234977634093 / 2^62.  `cos`
and `sin` are only used at this angle; `hypot` and `atan2` are not used with
this host. -/
def hostAtSmallAngle : MathLib ℚ :=
  { hypot := fun a b => |a| + |b|
    atan2 := fun _ _ => 0
    cos := fun _ => 4503594328668019 / 4503599627370496
    sin := fun _ => 7074234977634093 / 4611686018427387904
    pi := 884279719003555 / 281474976710656 }

/-- A green food item of radius 16 at (0, 0).  With this position and radius
every product and sum of `replicate` is exact in double arithmetic: the
products are by 2 and by 32 and the sums are with 0. -/
def bigFood : Food ℚ := Food.new 0 0 16 "green"

/-- The first call of `move` finds the only food item, within reach at
x = 101; it is eaten, so every later call finds no food. -/
def lastMealInputs : Nat → StepInput ℚ :=
  fun n =>
    if n = 0 then { draws := zeroDraws, foodItems := [foodAt 101], organisms := [org0] }
    else { draws := zeroDraws, foodItems := [], organisms := [org0] }

/-! ## Theorems -/

set_option maxRecDepth 100000

section Theorems

variable {K : Type} [LinearOrderedField K]

theorem eatLoop_full (M : MathLib K) (n k : Nat) (o : Organism K)
    (foodItems : List (Food K)) (h : o.isFull = true) :
    Organism.eatLoop M n k o foodItems = (o, foodItems) := by
  induction n generalizing k with
  | zero => rfl
  | succ n ih =>
    unfold Organism.eatLoop
    cases hk : foodItems[k]? with
    | none => simpa using ih (k + 1)
    | some food => simp [h, ih (k + 1)]

theorem eatLoop_cases (M : MathLib K) (n k : Nat) (o : Organism K)
    (foodItems : List (Food K)) :
    Organism.eatLoop M n k o foodItems = (o, foodItems) ∨
      (o.isFull = false ∧ ∃ j, j < foodItems.length ∧
        Organism.eatLoop M n k o foodItems =
          ({ o with lastEaten := 0, isFull := true }, foodItems.eraseIdx j)) := by
  induction n generalizing k with
  | zero => exact Or.inl rfl
  | succ n ih =>
    unfold Organism.eatLoop
    cases hk : foodItems[k]? with
    | none => simpa using ih (k + 1)
    | some food =>
      by_cases hc : M.hypot (o.x - food.x) (o.y - food.y) < o.radius + food.radius ∧
          o.isFull = false
      · right
        refine ⟨hc.2, k, ?_, ?_⟩
        · exact (List.getElem?_eq_some.1 hk).1
        · simp only [hc, and_self, if_true]
          exact eatLoop_full M n (k + 1) _ _ rfl
      · simp only [hc, if_false]
        exact ih (k + 1)

theorem move_ok_iff (cv : Canvas K) (M : MathLib K) (d : Draws K) (o : Organism K)
    (foodItems : List (Food K)) (organisms : List (Organism K)) :
    (∃ r, o.move cv M d foodItems organisms = .ok r) ↔
      (o.isFull = false ∨ foodItems ≠ []) := by
  unfold Organism.move Organism.target Organism.flee
  cases hf : o.isFull <;> cases foodItems <;> simp [Organism.nearest]

theorem target_ok_shape (M : MathLib K) (o o1 : Organism K)
    (foodItems : List (Food K)) (h : o.target M foodItems = .ok o1) :
    ∃ c s, o1 = { o with dx := c, dy := s } := by
  unfold Organism.target at h
  by_cases hf : o.isFull = true
  · simp only [hf, Bool.not_true, Bool.false_eq_true, if_false] at h
    unfold Organism.flee at h
    cases hn : o.nearest M foodItems with
    | error e => simp [hn] at h
    | ok f =>
      simp only [hn, Except.ok.injEq] at h
      exact ⟨_, _, h.symm⟩
  · have hf2 : o.isFull = false := by simpa using hf
    simp only [hf2, Bool.not_false, if_true, Except.ok.injEq] at h
    subst h
    unfold Organism.seek
    cases o.scan M foodItems with
    | none => exact ⟨o.dx, o.dy, rfl⟩
    | some f => exact ⟨_, _, rfl⟩

theorem bounce_advance_shape (cv : Canvas K) (o : Organism K) :
    ∃ c s, (o.advance).bounce cv =
      { o with x := o.x + o.dx, y := o.y + o.dy, dx := c, dy := s } := by
  unfold Organism.bounce Organism.advance
  dsimp only
  split_ifs <;> exact ⟨_, _, rfl⟩

theorem cooldown_shape (o : Organism K) :
    ∃ b t, o.cooldown = { o with canReproduce := b, reproductionTimer := t } := by
  unfold Organism.cooldown
  dsimp only
  split_ifs
  · exact ⟨_, _, rfl⟩
  · exact ⟨o.canReproduce, _, rfl⟩
  · exact ⟨o.canReproduce, o.reproductionTimer, rfl⟩

theorem reproduce_fst (d : Draws K) (o : Organism K) (organisms : List (Organism K)) :
    (o.reproduce d organisms).1 = { o with canReproduce := false } := by
  unfold Organism.reproduce
  dsimp only
  split_ifs <;> rfl

theorem tryReproduce_shape (d : Draws K) (o : Organism K)
    (organisms : List (Organism K)) :
    ∃ b, (o.tryReproduce d organisms).1 = { o with canReproduce := b } := by
  unfold Organism.tryReproduce
  split_ifs
  · exact ⟨false, by simp [reproduce_fst]⟩
  · exact ⟨o.canReproduce, rfl⟩

theorem maturity_shape (o : Organism K) :
    ∃ b, o.maturity = { o with canReproduce := b } := by
  unfold Organism.maturity
  split_ifs
  · exact ⟨_, rfl⟩
  · exact ⟨o.canReproduce, rfl⟩

theorem move_ok_unfold (cv : Canvas K) (M : MathLib K) (d : Draws K)
    (o : Organism K) (foodItems : List (Food K)) (organisms : List (Organism K))
    (r : Organism K × List (Food K) × List (Organism K))
    (h : o.move cv M d foodItems organisms = .ok r) :
    ∃ o1, o.target M foodItems = .ok o1 ∧
      r = (((((((o1.advance).bounce cv).eat M foodItems).1.tickHunger).cooldown.tryReproduce
              d organisms).1.maturity).digest,
            (((o1.advance).bounce cv).eat M foodItems).2,
            ((((o1.advance).bounce cv).eat M foodItems).1.tickHunger.cooldown.tryReproduce
              d organisms).2) := by
  unfold Organism.move at h
  cases ht : o.target M foodItems with
  | error e => simp [ht] at h
  | ok o1 =>
    simp only [ht, Except.ok.injEq] at h
    exact ⟨o1, rfl, h.symm⟩

/-- Lines 92-126 on the flag and timer left by the eating step. -/
theorem tail_hunger (d : Draws K) (e : Organism K) (organisms : List (Organism K)) :
    (e.isFull = true → e.lastEaten + 1 + 1 ≥ 300 →
      ((((e.tickHunger).cooldown.tryReproduce d organisms).1).maturity).digest.isFull = false ∧
      ((((e.tickHunger).cooldown.tryReproduce d organisms).1).maturity).digest.lastEaten = 0) ∧
    (e.isFull = true → ¬ e.lastEaten + 1 + 1 ≥ 300 →
      ((((e.tickHunger).cooldown.tryReproduce d organisms).1).maturity).digest.isFull = true ∧
      ((((e.tickHunger).cooldown.tryReproduce d organisms).1).maturity).digest.lastEaten
        = e.lastEaten + 1 + 1) ∧
    (e.isFull = false →
      ((((e.tickHunger).cooldown.tryReproduce d organisms).1).maturity).digest.isFull = false ∧
      ((((e.tickHunger).cooldown.tryReproduce d organisms).1).maturity).digest.lastEaten
        = e.lastEaten + 1) := by
  obtain ⟨b1, t1, h1⟩ := cooldown_shape e.tickHunger
  obtain ⟨b2, h2⟩ := tryReproduce_shape d (e.tickHunger.cooldown) organisms
  obtain ⟨b3, h3⟩ := maturity_shape ((e.tickHunger.cooldown.tryReproduce d organisms).1)
  rw [h3, h2, h1]
  unfold Organism.digest Organism.tickHunger
  dsimp only
  refine ⟨?_, ?_, ?_⟩
  · intro hf hge
    simp [hf, hge]
  · intro hf hlt
    simp only [hf, if_true, hlt, if_false, and_self]
  · intro hf
    simp [hf]

/-- The organism handed to the eating step differs from the one before the
call in position and heading only. -/
theorem movement_shape (cv : Canvas K) (M : MathLib K) (o o1 : Organism K)
    (foodItems : List (Food K)) (h : o.target M foodItems = .ok o1) :
    ∃ px py c s, (o1.advance).bounce cv = { o with x := px, y := py, dx := c, dy := s } := by
  obtain ⟨c, s, rfl⟩ := target_ok_shape M o o1 foodItems h
  obtain ⟨c2, s2, h2⟩ := bounce_advance_shape cv { o with dx := c, dy := s }
  exact ⟨_, _, c2, s2, h2⟩

/-- The result of the eating step: nothing happened, or the organism was not
full and one item was removed. -/
theorem eat_cases (M : MathLib K) (o : Organism K) (foodItems : List (Food K)) :
    o.eat M foodItems = (o, foodItems) ∨
      (o.isFull = false ∧ ∃ j, j < foodItems.length ∧
        o.eat M foodItems =
          ({ o with lastEaten := 0, isFull := true }, foodItems.eraseIdx j)) :=
  eatLoop_cases M foodItems.length 0 o foodItems

/-- The fullness flag and the hunger timer after a completed `move`, from the
flag and timer `(full, timer)` left by the eating step. -/
theorem move_hunger (cv : Canvas K) (M : MathLib K) (d : Draws K)
    (o : Organism K) (foodItems : List (Food K)) (organisms : List (Organism K))
    (r : Organism K × List (Food K) × List (Organism K))
    (h : o.move cv M d foodItems organisms = .ok r) :
    ∃ full timer,
      ((full = o.isFull ∧ timer = o.lastEaten) ∨
        (o.isFull = false ∧ full = true ∧ timer = 0)) ∧
      (full = true → timer + 1 + 1 ≥ 300 → r.1.isFull = false ∧ r.1.lastEaten = 0) ∧
      (full = true → ¬ timer + 1 + 1 ≥ 300 →
        r.1.isFull = true ∧ r.1.lastEaten = timer + 1 + 1) ∧
      (full = false → r.1.isFull = false ∧ r.1.lastEaten = timer + 1) := by
  obtain ⟨o1, ht, rfl⟩ := move_ok_unfold cv M d o foodItems organisms r h
  obtain ⟨px, py, c, s, h2⟩ := movement_shape cv M o o1 foodItems ht
  have hfull : ((o1.advance).bounce cv).isFull = o.isFull := by rw [h2]
  have hlast : ((o1.advance).bounce cv).lastEaten = o.lastEaten := by rw [h2]
  refine ⟨(((o1.advance).bounce cv).eat M foodItems).1.isFull,
    (((o1.advance).bounce cv).eat M foodItems).1.lastEaten, ?_,
    tail_hunger d _ organisms⟩
  rcases eat_cases M ((o1.advance).bounce cv) foodItems with he | ⟨hnf, j, _, he⟩
  · left
    rw [he]
    exact ⟨hfull, hlast⟩
  · right
    rw [he]
    exact ⟨hfull ▸ hnf, rfl, rfl⟩

/-- C1 (what the code does): for every organism that is full, `move` on an
empty food collection does not complete; the `reduce` of line 57 throws before
any field is written.  The state is reached in two frames: in the first the
only organism eats the only food item, in the second `animate` throws. -/
theorem move_full_without_food_throws :
    (∀ (cv : Canvas K) (M : MathLib K) (d : Draws K) (o : Organism K)
      (organisms : List (Organism K)),
      Organism.move cv M d { o with isFull := true } [] organisms =
        .error .reduceOfEmptyArray) ∧
    animate canvas0 axisMath (fun _ => 0) (fun _ => zeroDraws) worldLastMeal =
      .ok worldNoFood ∧
    animate canvas0 axisMath (fun _ => 0) (fun _ => zeroDraws) worldNoFood =
      .error .reduceOfEmptyArray := by
  refine ⟨?_, by with_unfolding_all rfl, by with_unfolding_all rfl⟩
  intro cv M d o organisms
  simp [Organism.move, Organism.target, Organism.flee, Organism.nearest]

/-- The branch for an organism that is not full handles the empty collection:
the targeting step leaves the organism as it was. -/
theorem seek_without_food (M : MathLib K) (o : Organism K) : o.seek M [] = o := by
  simp [Organism.seek, Organism.scan]

/-- C2: a completed `move` leaves the food collection with the same length or
with exactly one item fewer. -/
theorem move_removes_at_most_one_food (cv : Canvas K) (M : MathLib K) (d : Draws K)
    (o : Organism K) (foodItems : List (Food K)) (organisms : List (Organism K))
    (r : Organism K × List (Food K) × List (Organism K))
    (h : o.move cv M d foodItems organisms = .ok r) :
    r.2.1.length = foodItems.length ∨ r.2.1.length + 1 = foodItems.length := by
  obtain ⟨o1, _, rfl⟩ := move_ok_unfold cv M d o foodItems organisms r h
  rcases eat_cases M ((o1.advance).bounce cv) foodItems with he | ⟨_, j, hj, he⟩
  · left
    simp only [he]
  · right
    simp only [he, List.length_eraseIdx, hj, if_true]
    omega

/-- Witness for C2: three items overlap the organism after its step, one is
removed. -/
theorem move_removes_at_most_one_food_witness :
    org0.move canvas0 axisMath zeroDraws [foodAt 101, foodAt 102, foodAt 103] [org0] =
      .ok (stepped { org0 with lastEaten := 2, isFull := true },
        [foodAt 102, foodAt 103], [org0]) ∧
    (([foodAt 102, foodAt 103] : List (Food ℚ)).length =
        [foodAt 101, foodAt 102, foodAt 103].length ∨
      ([foodAt 102, foodAt 103] : List (Food ℚ)).length + 1 =
        [foodAt 101, foodAt 102, foodAt 103].length) := by
  have h : org0.move canvas0 axisMath zeroDraws [foodAt 101, foodAt 102, foodAt 103]
      [org0] = .ok (stepped { org0 with lastEaten := 2, isFull := true },
        [foodAt 102, foodAt 103], [org0]) := by with_unfolding_all rfl
  exact ⟨h, move_removes_at_most_one_food canvas0 axisMath zeroDraws org0
    [foodAt 101, foodAt 102, foodAt 103] [org0] _ h⟩

/-- C5: `reproduce` returns the collection it was given followed by one or two
new organisms, two exactly when the bonus draw is below the bonus probability;
every prior entry keeps its index, the new organisms have radius 5, a zero
hunger timer, the parent's maximum hunger and cooldown length and the drawn
position, and the parent only has its ready flag cleared. -/
theorem reproduce_appends_one_or_two (d : Draws K) (o : Organism K)
    (organisms : List (Organism K)) :
    ∃ kids, (o.reproduce d organisms).2 = organisms ++ kids ∧
      (kids.length = 1 ∨ kids.length = 2) ∧
      (kids.length = 2 ↔ d.extra < o.extraReproductionChance) ∧
      organisms.length ≤ (o.reproduce d organisms).2.length ∧
      (∀ i, i < organisms.length → (o.reproduce d organisms).2[i]? = organisms[i]?) ∧
      (∀ k ∈ kids, k.radius = 5 ∧ k.lastEaten = 0 ∧ k.maxLastEaten = o.maxLastEaten ∧
        k.reproductionCooldown = o.reproductionCooldown ∧
        k.x = o.x + (d.offX * 20 - 10) ∧ k.y = o.y + (d.offY * 20 - 10)) ∧
      (o.reproduce d organisms).1 = { o with canReproduce := false } := by
  by_cases hx : d.extra < o.extraReproductionChance
  · refine ⟨[Organism.new (o.x + (d.offX * 20 - 10)) (o.y + (d.offY * 20 - 10)) 5
        o.maxLastEaten o.reproductionCooldown d.vx1 d.vy1,
      Organism.new (o.x + (d.offX * 20 - 10)) (o.y + (d.offY * 20 - 10)) 5
        o.maxLastEaten o.reproductionCooldown d.vx2 d.vy2], ?_, ?_, ?_, ?_, ?_, ?_, ?_⟩
    · simp [Organism.reproduce, hx]
    · simp
    · simp [hx]
    · simp [Organism.reproduce, hx]
    · intro i hi
      simp [Organism.reproduce, hx, List.getElem?_append_left hi]
    · intro k hk
      simp only [List.mem_cons, List.mem_singleton, List.not_mem_nil, or_false] at hk
      rcases hk with rfl | rfl <;> simp [Organism.new]
    · exact reproduce_fst d o organisms
  · refine ⟨[Organism.new (o.x + (d.offX * 20 - 10)) (o.y + (d.offY * 20 - 10)) 5
        o.maxLastEaten o.reproductionCooldown d.vx1 d.vy1], ?_, ?_, ?_, ?_, ?_, ?_, ?_⟩
    · simp [Organism.reproduce, hx]
    · simp
    · simp [hx]
    · simp [Organism.reproduce, hx]
    · intro i hi
      simp [Organism.reproduce, hx, List.getElem?_append_left hi]
    · intro k hk
      simp only [List.mem_singleton] at hk
      subst hk
      simp [Organism.new]
    · exact reproduce_fst d o organisms

/-- C9: in a completed `move` of a full organism the hunger timer rises by 2
and the organism stays full while the new value is below 300; when the new
value reaches 300 the flag is cleared and the timer is 0; an organism that
became full in this `move` ends it with timer 2; and an organism that is full
after a `move` has a timer below 300. -/
theorem fullness_counter (cv : Canvas K) (M : MathLib K) (d : Draws K)
    (o : Organism K) (foodItems : List (Food K)) (organisms : List (Organism K))
    (r : Organism K × List (Food K) × List (Organism K))
    (h : o.move cv M d foodItems organisms = .ok r) :
    (o.isFull = true → o.lastEaten + 2 < 300 →
      r.1.isFull = true ∧ r.1.lastEaten = o.lastEaten + 2) ∧
    (o.isFull = true → 300 ≤ o.lastEaten + 2 →
      r.1.isFull = false ∧ r.1.lastEaten = 0) ∧
    (o.isFull = false → r.1.isFull = true → r.1.lastEaten = 2) ∧
    (r.1.isFull = true → r.1.lastEaten < 300) := by
  obtain ⟨full, timer, hcase, hclear, hkeep, hidle⟩ :=
    move_hunger cv M d o foodItems organisms r h
  have h2 : ∀ t : K, t + 1 + 1 = t + 2 := fun t => by ring
  refine ⟨?_, ?_, ?_, ?_⟩
  · intro hf hlt
    rcases hcase with ⟨rfl, rfl⟩ | ⟨hnf, _, _⟩
    · have := hkeep hf (by rw [h2]; exact not_le.2 hlt)
      rwa [h2] at this
    · rw [hf] at hnf
      cases hnf
  · intro hf hge
    rcases hcase with ⟨rfl, rfl⟩ | ⟨hnf, _, _⟩
    · exact hclear hf (by rw [h2]; exact hge)
    · rw [hf] at hnf
      cases hnf
  · intro hnf hr
    rcases hcase with ⟨rfl, rfl⟩ | ⟨_, rfl, rfl⟩
    · rw [(hidle hnf).1] at hr
      cases hr
    · have hlt : ¬ (0 : K) + 1 + 1 ≥ 300 := by norm_num
      have := (hkeep rfl hlt).2
      rw [this]
      norm_num
  · intro hr
    cases hfull : full
    · rw [(hidle hfull).1] at hr
      cases hr
    · by_cases hge : timer + 1 + 1 ≥ 300
      · rw [(hclear hfull hge).1] at hr
        cases hr
      · rw [(hkeep hfull hge).2]
        exact not_le.1 hge

/-- Witness for C9: a full organism with timer 148 is still full with timer
150 after one `move`; with timer 298 the `move` clears the flag and resets the
timer. -/
theorem fullness_counter_witness :
    (fullOrg 148).move canvas0 axisMath zeroDraws [foodAt 90] [fullOrg 148] =
      .ok (stepped (fullOrg 150), [foodAt 90], [fullOrg 148]) ∧
    (fullOrg 298).move canvas0 axisMath zeroDraws [foodAt 90] [fullOrg 298] =
      .ok (stepped org0, [foodAt 90], [fullOrg 298]) ∧
    ((stepped (fullOrg 150)).isFull = true ∧
      (stepped (fullOrg 150)).lastEaten = (fullOrg 148).lastEaten + 2) ∧
    (stepped (fullOrg 150)).lastEaten < 300 ∧
    ((stepped org0).isFull = false ∧ (stepped org0).lastEaten = 0) := by
  have h1 : (fullOrg 148).move canvas0 axisMath zeroDraws [foodAt 90] [fullOrg 148] =
      .ok (stepped (fullOrg 150), [foodAt 90], [fullOrg 148]) := by
    with_unfolding_all rfl
  have h2 : (fullOrg 298).move canvas0 axisMath zeroDraws [foodAt 90] [fullOrg 298] =
      .ok (stepped org0, [foodAt 90], [fullOrg 298]) := by
    with_unfolding_all rfl
  have t1 := fullness_counter canvas0 axisMath zeroDraws (fullOrg 148) [foodAt 90]
    [fullOrg 148] _ h1
  have t2 := fullness_counter canvas0 axisMath zeroDraws (fullOrg 298) [foodAt 90]
    [fullOrg 298] _ h2
  exact ⟨h1, h2, t1.1 rfl (by norm_num [fullOrg]), t1.2.2.2 rfl,
    t2.2.1 rfl (by norm_num [fullOrg])⟩

/-- C10: `isStarved` is true exactly when the hunger timer is strictly greater
than the maximum hunger; it is false at equality, and true for timer 501 with
maximum 500.  It returns a value and writes no field. -/
theorem isStarved_iff (o : Organism K) :
    (o.isStarved = true ↔ o.lastEaten > o.maxLastEaten) ∧
    ({ o with lastEaten := o.maxLastEaten }).isStarved = false ∧
    ({ o with lastEaten := 501, maxLastEaten := 500 }).isStarved = true := by
  refine ⟨by simp [Organism.isStarved], by simp [Organism.isStarved], ?_⟩
  simp only [Organism.isStarved, gt_iff_lt, decide_eq_true_eq]
  norm_num

theorem digest_shape (o : Organism K) :
    ∃ l b, o.digest = { o with lastEaten := l, isFull := b } := by
  unfold Organism.digest
  dsimp only
  split_ifs
  · exact ⟨_, _, rfl⟩
  · exact ⟨_, o.isFull, rfl⟩
  · exact ⟨o.lastEaten, o.isFull, rfl⟩

theorem eat_shape (M : MathLib K) (o : Organism K) (foodItems : List (Food K)) :
    ∃ l b, (o.eat M foodItems).1 = { o with lastEaten := l, isFull := b } := by
  rcases eat_cases M o foodItems with he | ⟨_, j, _, he⟩
  · exact ⟨o.lastEaten, o.isFull, by rw [he]⟩
  · exact ⟨0, true, by rw [he]⟩

/-- Lines 82-126 write the hunger timer, the two flags and the cooldown timer
of the organism and no other field. -/
theorem tail_shape (M : MathLib K) (d : Draws K) (e : Organism K)
    (foodItems : List (Food K)) (organisms : List (Organism K)) :
    ∃ l full b t,
      (((((e.eat M foodItems).1.tickHunger).cooldown.tryReproduce d organisms).1).maturity).digest
        = { e with lastEaten := l, isFull := full, canReproduce := b,
                   reproductionTimer := t } := by
  obtain ⟨l0, f0, h0⟩ := eat_shape M e foodItems
  obtain ⟨b1, t1, h1⟩ := cooldown_shape (e.eat M foodItems).1.tickHunger
  obtain ⟨b2, h2⟩ := tryReproduce_shape d ((e.eat M foodItems).1.tickHunger.cooldown) organisms
  obtain ⟨b3, h3⟩ := maturity_shape
    (((e.eat M foodItems).1.tickHunger.cooldown.tryReproduce d organisms).1)
  obtain ⟨l4, f4, h4⟩ := digest_shape
    (((e.eat M foodItems).1.tickHunger.cooldown.tryReproduce d organisms).1).maturity
  rw [h4, h3, h2, h1, h0]
  exact ⟨l4, f4, b3, t1, rfl⟩

/-- A completed `move` writes the position, the heading, the hunger timer, the
two flags and the cooldown timer of the organism and no other field; the new
position is the old one plus the heading chosen by the targeting step. -/
theorem move_shape (cv : Canvas K) (M : MathLib K) (d : Draws K)
    (o : Organism K) (foodItems : List (Food K)) (organisms : List (Organism K))
    (r : Organism K × List (Food K) × List (Organism K))
    (h : o.move cv M d foodItems organisms = .ok r) :
    ∃ o1 c s l full b t, o.target M foodItems = .ok o1 ∧
      r.1 = { o with x := o.x + o1.dx, y := o.y + o1.dy, dx := c, dy := s,
                     lastEaten := l, isFull := full, canReproduce := b,
                     reproductionTimer := t } := by
  obtain ⟨o1, ht, rfl⟩ := move_ok_unfold cv M d o foodItems organisms r h
  obtain ⟨c0, s0, h0⟩ := target_ok_shape M o o1 foodItems ht
  obtain ⟨c, s, h2⟩ := bounce_advance_shape cv o1
  obtain ⟨l, full, b, t, h3⟩ := tail_shape M d ((o1.advance).bounce cv) foodItems organisms
  refine ⟨o1, c, s, l, full, b, t, ht, ?_⟩
  dsimp only
  rw [h3, h2, h0]

/-- C8 (the claim fails): an organism whose circle is inside the 800 by 600
world, next to the right edge, steps towards a food item at x = 797; after the
`move` its centre is at x = 796, so its circle reaches x = 801, outside the
world; only the velocity was reflected. -/
theorem movement_leaves_bounds :
    (wallOrg.radius ≤ wallOrg.x ∧ wallOrg.x ≤ canvas0.width - wallOrg.radius ∧
      wallOrg.radius ≤ wallOrg.y ∧ wallOrg.y ≤ canvas0.height - wallOrg.radius) ∧
    wallOrg.move canvas0 axisMath zeroDraws [foodAt 797] [wallOrg] =
      .ok ({ wallOrg with x := 796, dx := -1, dy := 0, lastEaten := 2, isFull := true,
                          reproductionTimer := 1 }, [], [wallOrg]) ∧
    ¬ ((796 : ℚ) ≤ canvas0.width - wallOrg.radius) := by
  refine ⟨by norm_num [wallOrg, canvas0, Organism.new], by with_unfolding_all rfl, ?_⟩
  norm_num [wallOrg, canvas0, Organism.new]

theorem scanInv_step (M : MathLib K) (o : Organism K) (seen : List (Food K))
    (acc : Option (Food K) × K) (food : Food K) (h : ScanInv M o seen acc) :
    ScanInv M o (seen ++ [food]) (o.scanStep M acc food) := by
  obtain ⟨h1, h2, h3⟩ := h
  unfold Organism.scanStep
  dsimp only
  by_cases hlt : M.hypot (o.x - food.x) (o.y - food.y) < acc.2
  · rw [if_pos hlt]
    refine ⟨?_, ?_, ?_⟩
    · intro f hf
      simp only [Option.some.injEq] at hf
      subst hf
      refine ⟨by simp, rfl, ?_⟩
      dsimp only
      cases hacc : acc.1 with
      | none => rw [← h2 hacc]; exact hlt
      | some f0 => exact lt_trans hlt (h1 f0 hacc).2.2
    · intro hn
      simp at hn
    · intro g hg
      simp only [List.mem_append, List.mem_singleton] at hg
      rcases hg with hg | rfl
      · exact le_trans (le_of_lt hlt) (h3 g hg)
      · exact le_refl _
  · rw [if_neg hlt]
    refine ⟨?_, h2, ?_⟩
    · intro f hf
      obtain ⟨hm, hd, hv⟩ := h1 f hf
      exact ⟨by simp [hm], hd, hv⟩
    · intro g hg
      simp only [List.mem_append, List.mem_singleton] at hg
      rcases hg with hg | rfl
      · exact h3 g hg
      · exact not_lt.1 hlt

theorem scanInv_foldl (M : MathLib K) (o : Organism K) (rest seen : List (Food K))
    (acc : Option (Food K) × K) (h : ScanInv M o seen acc) :
    ScanInv M o (seen ++ rest) (rest.foldl (o.scanStep M) acc) := by
  induction rest generalizing seen acc with
  | nil => simpa using h
  | cons food rest ih =>
    have := ih (seen ++ [food]) (o.scanStep M acc food) (scanInv_step M o seen acc food h)
    simpa using this

/-- The scan of lines 35-44 returns an item exactly when some item is closer
than the field of view; the item returned is in the collection, is closer than
the field of view, and no item of the collection is closer than it. -/
theorem scan_spec (M : MathLib K) (o : Organism K) (foodItems : List (Food K)) :
    (∀ f, o.scan M foodItems = some f →
      f ∈ foodItems ∧ M.hypot (o.x - f.x) (o.y - f.y) < FOV_RADIUS ∧
      ∀ g ∈ foodItems, M.hypot (o.x - f.x) (o.y - f.y) ≤ M.hypot (o.x - g.x) (o.y - g.y)) ∧
    ((∃ g ∈ foodItems, M.hypot (o.x - g.x) (o.y - g.y) < FOV_RADIUS) →
      ∃ f, o.scan M foodItems = some f) := by
  have h0 : ScanInv M o [] ((none : Option (Food K)), (FOV_RADIUS : K)) :=
    ⟨fun f hf => by simp at hf, fun _ => rfl, fun g hg => by simp at hg⟩
  have hinv := scanInv_foldl M o foodItems [] _ h0
  simp only [List.nil_append] at hinv
  obtain ⟨h1, h2, h3⟩ := hinv
  refine ⟨?_, ?_⟩
  · intro f hf
    obtain ⟨hm, hd, hv⟩ := h1 f hf
    refine ⟨hm, by rw [hd]; exact hv, ?_⟩
    intro g hg
    rw [hd]
    exact h3 g hg
  · rintro ⟨g, hg, hlt⟩
    cases hs : o.scan M foodItems with
    | some f => exact ⟨f, rfl⟩
    | none =>
      have := h3 g hg
      rw [h2 hs] at this
      exact absurd hlt (not_lt.2 this)


/-- C7 (the claim fails): an organism that is not full, with one food item
inside the field of view and no bounds collision, takes its unit step past the
item: from distance 1/4 it ends at distance 3/4, and from distance 1/2 it ends at
distance 1/2. -/
theorem seek_overshoots_near_food :
    org0.isFull = false ∧
    axisMath.hypot (org0.x - (foodAt (401 / 4)).x) (org0.y - (foodAt (401 / 4)).y)
      < FOV_RADIUS ∧
    axisMath.hypot (org0.x - (foodAt (201 / 2)).x) (org0.y - (foodAt (201 / 2)).y)
      < FOV_RADIUS ∧
    org0.move canvas0 axisMath zeroDraws [foodAt (401 / 4)] [org0] =
      .ok (stepped { org0 with lastEaten := 2, isFull := true }, [], [org0]) ∧
    org0.move canvas0 axisMath zeroDraws [foodAt (201 / 2)] [org0] =
      .ok (stepped { org0 with lastEaten := 2, isFull := true }, [], [org0]) ∧
    ((stepped org0).x + org0.radius ≤ canvas0.width ∧ 0 ≤ (stepped org0).x - org0.radius ∧
      (stepped org0).y + org0.radius ≤ canvas0.height ∧
      0 ≤ (stepped org0).y - org0.radius) ∧
    ¬ (((stepped org0).x - (foodAt (401 / 4)).x) ^ 2 +
        ((stepped org0).y - (foodAt (401 / 4)).y) ^ 2 <
      (org0.x - (foodAt (401 / 4)).x) ^ 2 + (org0.y - (foodAt (401 / 4)).y) ^ 2) ∧
    ¬ (((stepped org0).x - (foodAt (201 / 2)).x) ^ 2 +
        ((stepped org0).y - (foodAt (201 / 2)).y) ^ 2 <
      (org0.x - (foodAt (201 / 2)).x) ^ 2 + (org0.y - (foodAt (201 / 2)).y) ^ 2) := by
  refine ⟨rfl, ?_, ?_, by with_unfolding_all rfl, by with_unfolding_all rfl, ?_, ?_, ?_⟩
  · norm_num [axisMath, org0, foodAt, Organism.new, Food.new, FOV_RADIUS, abs_of_neg]
  · norm_num [axisMath, org0, foodAt, Organism.new, Food.new, FOV_RADIUS, abs_of_neg]
  · norm_num [stepped, org0, canvas0, Organism.new]
  · norm_num [stepped, org0, foodAt, Organism.new, Food.new]
  · norm_num [stepped, org0, foodAt, Organism.new, Food.new]

/-- The organism that reaches the reproduction test differs from the one before
the call in position, heading, hunger timer, the two flags and the cooldown
timer only. -/
theorem pre_reproduce_shape (cv : Canvas K) (M : MathLib K) (o o1 : Organism K)
    (foodItems : List (Food K)) (h : o.target M foodItems = .ok o1) :
    ∃ px py c s l full b t,
      ((((o1.advance).bounce cv).eat M foodItems).1.tickHunger).cooldown =
        { o with x := px, y := py, dx := c, dy := s, lastEaten := l, isFull := full,
                 canReproduce := b, reproductionTimer := t } := by
  obtain ⟨px, py, c, s, h2⟩ := movement_shape cv M o o1 foodItems h
  obtain ⟨l0, f0, h0⟩ := eat_shape M ((o1.advance).bounce cv) foodItems
  obtain ⟨b1, t1, h1⟩ := cooldown_shape (((o1.advance).bounce cv).eat M foodItems).1.tickHunger
  rw [h1, h0, h2]
  exact ⟨px, py, c, s, _, f0, b1, t1, rfl⟩

/-- The objects pushed by `reproduce`: one or two, each built by the constructor
with radius 5 and the parent's maximum hunger and cooldown length. -/
theorem reproduce_pushes (d : Draws K) (o : Organism K) (organisms : List (Organism K)) :
    ∃ kids, (o.reproduce d organisms).2 = organisms ++ kids ∧
      ∀ k ∈ kids, ∃ x y r1 r2,
        k = Organism.new x y 5 o.maxLastEaten o.reproductionCooldown r1 r2 := by
  unfold Organism.reproduce
  dsimp only
  split_ifs
  · refine ⟨[Organism.new (o.x + (d.offX * 20 - 10)) (o.y + (d.offY * 20 - 10)) 5
        o.maxLastEaten o.reproductionCooldown d.vx1 d.vy1,
      Organism.new (o.x + (d.offX * 20 - 10)) (o.y + (d.offY * 20 - 10)) 5
        o.maxLastEaten o.reproductionCooldown d.vx2 d.vy2], by simp, ?_⟩
    intro k hk
    simp only [List.mem_cons, List.mem_singleton, List.not_mem_nil, or_false] at hk
    rcases hk with rfl | rfl <;> exact ⟨_, _, _, _, rfl⟩
  · refine ⟨[_], rfl, ?_⟩
    intro k hk
    simp only [List.mem_singleton] at hk
    subst hk
    exact ⟨_, _, _, _, rfl⟩

/-- A completed `move` returns the `organisms` array it was given followed by
the objects pushed, each built by the constructor with radius 5 and the
maximum hunger and cooldown length of the organism that moved. -/
theorem move_pushes (cv : Canvas K) (M : MathLib K) (d : Draws K)
    (o : Organism K) (foodItems : List (Food K)) (organisms : List (Organism K))
    (r : Organism K × List (Food K) × List (Organism K))
    (h : o.move cv M d foodItems organisms = .ok r) :
    ∃ kids, r.2.2 = organisms ++ kids ∧
      ∀ k ∈ kids, ∃ x y r1 r2,
        k = Organism.new x y 5 o.maxLastEaten o.reproductionCooldown r1 r2 := by
  obtain ⟨o1, ht, rfl⟩ := move_ok_unfold cv M d o foodItems organisms r h
  obtain ⟨px, py, c, s, l, full, b, t, hs⟩ := pre_reproduce_shape cv M o o1 foodItems ht
  dsimp only
  unfold Organism.tryReproduce
  split_ifs
  · obtain ⟨kids, hk, hall⟩ := reproduce_pushes d
      ((((o1.advance).bounce cv).eat M foodItems).1.tickHunger).cooldown organisms
    refine ⟨kids, hk, ?_⟩
    intro k hkm
    obtain ⟨x, y, r1, r2, hk2⟩ := hall k hkm
    rw [hs] at hk2
    exact ⟨x, y, r1, r2, hk2⟩
  · exact ⟨[], by simp, by simp⟩

theorem getElem?_mid {α : Type} (a : List α) (x : α) (b : List α) (i : Nat)
    (h : a.length = i) : (a ++ x :: b)[i]? = some x := by
  subst h
  induction a with
  | nil => simp
  | cons y a ih => simpa using ih

theorem set_mid {α : Type} (a : List α) (x y : α) (b : List α) (i : Nat)
    (h : a.length = i) : (a ++ x :: b).set i y = a ++ y :: b := by
  subst h
  induction a with
  | nil => rfl
  | cons z a ih => simp [ih]

theorem eraseIdx_mid {α : Type} (a : List α) (x : α) (b : List α) (i : Nat)
    (h : a.length = i) : (a ++ x :: b).eraseIdx i = a ++ b := by
  subst h
  induction a with
  | nil => rfl
  | cons z a ih => simpa using ih

theorem take_succ_mid {α : Type} (l : List α) (i : Nat) (x : α) (h : l[i]? = some x) :
    l.take (i + 1) = l.take i ++ [x] := by
  rw [List.take_succ, h]
  rfl

/-- Invariant of the loop of lines 271-279.  When the loop is entered with
counter `i`, the array is the first `i` original objects followed by `rest`.
The iterations from there visit the indices `i - 1, ..., 0`, read the original
object at each, and leave the survivors of these visits (in array order),
then `rest`, then the objects pushed during these visits. -/
theorem organismLoop_spec (cv : Canvas K) (M : MathLib K) (ds : Nat → Draws K)
    (orig : List (Organism K)) :
    ∀ (i : Nat) (s s' : World K × List (Visit K)) (rest : List (Organism K)),
      i ≤ orig.length → s.1.organisms = orig.take i ++ rest →
      organismLoop cv M ds i s = .ok s' →
      ∃ newLog, s'.2 = s.2 ++ newLog ∧
        newLog.map (fun v => (v.index, some v.before)) =
          (List.range i).reverse.map (fun j => (j, orig[j]?)) ∧
        (∀ v ∈ newLog, ∃ foods orgs res,
          v.before.move cv M (ds v.index) foods orgs = .ok res ∧
          v.after = res.1 ∧ res.2.2 = orgs ++ v.born) ∧
        s'.1.organisms =
          (newLog.reverse.filter (fun v => !v.after.isStarved)).map (fun v => v.after)
            ++ rest ++ newLog.flatMap (fun v => v.born) := by
  intro i
  induction i with
  | zero =>
    intro s s' rest _ horg h
    simp only [organismLoop, Except.ok.injEq] at h
    subst h
    exact ⟨[], by simp, by simp, by simp, by simpa using horg⟩
  | succ i ih =>
    intro s s' rest hle horg h
    have hi : i < orig.length := hle
    have hlen : (orig.take i).length = i := by
      rw [List.length_take]; exact min_eq_left (le_of_lt hi)
    have hoi : orig[i]? = some orig[i] := List.getElem?_eq_getElem hi
    have horg2 : s.1.organisms = orig.take i ++ orig[i] :: rest := by
      rw [horg, take_succ_mid orig i _ hoi, List.append_assoc]
      rfl
    have hget : s.1.organisms[i]? = some orig[i] := by
      rw [horg2]; exact getElem?_mid _ _ _ i hlen
    rw [organismLoop] at h
    simp only [hget] at h
    cases hmv : orig[i].move cv M (ds i) s.1.foodItems s.1.organisms with
    | error e => simp [hmv] at h
    | ok r =>
      simp only [hmv] at h
      obtain ⟨kids, hkids, _⟩ := move_pushes cv M (ds i) _ _ _ r hmv
      have hborn : r.2.2.drop s.1.organisms.length = kids := by
        rw [hkids]; exact List.drop_left _ _
      have hwritten : r.2.2.set i r.1 = orig.take i ++ r.1 :: (rest ++ kids) := by
        rw [hkids, horg2, List.append_assoc, List.cons_append]
        exact set_mid _ _ _ _ i hlen
      rw [hborn, hwritten] at h
      by_cases hst : r.1.isStarved = true
      · simp only [hst, if_true] at h
        rw [eraseIdx_mid _ _ _ i hlen] at h
        obtain ⟨newLog, hlog, hmap, hmoves, hfinal⟩ :=
          ih _ s' (rest ++ kids) (le_of_lt hi) rfl h
        refine ⟨{ index := i, before := orig[i], after := r.1, born := kids } :: newLog,
          ?_, ?_, ?_, ?_⟩
        · rw [hlog]; simp
        · simp [List.range_succ, hmap, hoi]
        · intro v hv
          rcases List.mem_cons.1 hv with rfl | hv
          · exact ⟨_, _, r, hmv, rfl, hkids⟩
          · exact hmoves v hv
        · rw [hfinal]
          simp [List.filter_append, hst]
      · simp only [hst, if_false] at h
        obtain ⟨newLog, hlog, hmap, hmoves, hfinal⟩ :=
          ih _ s' (r.1 :: (rest ++ kids)) (le_of_lt hi) rfl h
        refine ⟨{ index := i, before := orig[i], after := r.1, born := kids } :: newLog,
          ?_, ?_, ?_, ?_⟩
        · rw [hlog]; simp
        · simp [List.range_succ, hmap, hoi]
        · intro v hv
          rcases List.mem_cons.1 hv with rfl | hv
          · exact ⟨_, _, r, hmv, rfl, hkids⟩
          · exact hmoves v hv
        · rw [hfinal]
          simp [List.filter_append, hst]


/-- The organism pass from a world `w`: the iterations visit the indices from
the last to the first, each reads the object that was at its index in `w`, and
the array at the end is the survivors in array order followed by all objects
pushed during the pass. -/
theorem organismPassLog_spec (cv : Canvas K) (M : MathLib K) (ds : Nat → Draws K)
    (w : World K) (r : World K × List (Visit K))
    (h : organismPassLog cv M ds w = .ok r) :
    r.2.map (fun v => (v.index, some v.before)) =
      (List.range w.organisms.length).reverse.map (fun j => (j, w.organisms[j]?)) ∧
    (∀ v ∈ r.2, ∃ foods orgs res,
      v.before.move cv M (ds v.index) foods orgs = .ok res ∧
      v.after = res.1 ∧ res.2.2 = orgs ++ v.born) ∧
    r.1.organisms =
      (r.2.reverse.filter (fun v => !v.after.isStarved)).map (fun v => v.after)
        ++ r.2.flatMap (fun v => v.born) := by
  obtain ⟨newLog, hlog, hmap, hmoves, hfinal⟩ :=
    organismLoop_spec cv M ds w.organisms w.organisms.length (w, []) r []
      (le_refl _) (by simp) h
  simp only [List.nil_append] at hlog
  subst hlog
  exact ⟨hmap, hmoves, by simpa using hfinal⟩

/-- Every object read by an iteration of the organism pass is an object of the
array at the start of the pass. -/
theorem visit_before_mem (cv : Canvas K) (M : MathLib K) (ds : Nat → Draws K)
    (w : World K) (r : World K × List (Visit K))
    (h : organismPassLog cv M ds w = .ok r) (v : Visit K) (hv : v ∈ r.2) :
    v.before ∈ w.organisms := by
  have hmap := (organismPassLog_spec cv M ds w r h).1
  have hmem : (v.index, some v.before) ∈
      r.2.map (fun v => (v.index, some v.before)) := List.mem_map.2 ⟨v, hv, rfl⟩
  rw [hmap] at hmem
  obtain ⟨j, _, hj⟩ := List.mem_map.1 hmem
  have : w.organisms[j]? = some v.before := (Prod.mk.inj hj).2
  exact List.getElem?_mem this

/-- C3: after a completed organism pass from a world whose organisms all have a
maximum hunger that is not negative, no organism in the collection is starved,
neither a survivor of the pass nor an object pushed during it. -/
theorem pass_leaves_no_starved (cv : Canvas K) (M : MathLib K) (ds : Nat → Draws K)
    (w w' : World K) (hmax : ∀ o ∈ w.organisms, 0 ≤ o.maxLastEaten)
    (h : organismPass cv M ds w = .ok w') :
    ∀ o ∈ w'.organisms, o.isStarved = false := by
  unfold organismPass at h
  cases hp : organismPassLog cv M ds w with
  | error e => simp [hp] at h
  | ok r =>
    simp only [hp, Except.ok.injEq] at h
    subst h
    obtain ⟨_, hmoves, hfinal⟩ := organismPassLog_spec cv M ds w r hp
    intro o ho
    rw [hfinal] at ho
    rcases List.mem_append.1 ho with hs | hb
    · obtain ⟨v, hv, rfl⟩ := List.mem_map.1 hs
      have := (List.mem_filter.1 hv).2
      simpa using this
    · obtain ⟨v, hv, hk⟩ := List.mem_flatMap.1 hb
      obtain ⟨foods, orgs, res, hmv, _, hres⟩ := hmoves v hv
      obtain ⟨kids, hkids, hall⟩ := move_pushes cv M (ds v.index) _ _ _ res hmv
      have hsame : v.born = kids := List.append_cancel_left (hres.symm.trans hkids)
      rw [hsame] at hk
      obtain ⟨x, y, r1, r2, rfl⟩ := hall o hk
      have hnn := hmax v.before (visit_before_mem cv M ds w r hp v hv)
      simp only [Organism.isStarved, Organism.new, gt_iff_lt, decide_eq_false_iff_not, not_lt]
      exact hnn

/-- Witness for C3: from `world0` the pass removes the organism that starves
and keeps the two others and the two offspring. -/
theorem pass_leaves_no_starved_witness :
    (∀ o ∈ world0.organisms, 0 ≤ o.maxLastEaten) ∧
    organismPass canvas0 axisMath (fun _ => zeroDraws) world0 = .ok world1 ∧
    ∀ o ∈ world1.organisms, o.isStarved = false := by
  have hmax : ∀ o ∈ world0.organisms, 0 ≤ o.maxLastEaten := by
    intro o ho
    simp only [world0, List.mem_cons, List.mem_singleton, List.not_mem_nil, or_false] at ho
    rcases ho with rfl | rfl | rfl <;> norm_num [org0, starving, breeder, Organism.new]
  have hpass : organismPass canvas0 axisMath (fun _ => zeroDraws) world0 = .ok world1 := by
    with_unfolding_all rfl
  exact ⟨hmax, hpass,
    pass_leaves_no_starved canvas0 axisMath (fun _ => zeroDraws) world0 world1 hmax hpass⟩

/-- C4: in a completed organism pass there is one iteration for each index of
the array at the start, from the last index to the first; the object updated by
the iteration with index `j` is the object that was at `j` at the start, so no
object pushed during the pass is updated; each iteration is one call of `move`;
and at the end the array is the updated objects that are not starved, in array
order, followed by every object pushed during the pass. -/
theorem pass_updates_each_once (cv : Canvas K) (M : MathLib K) (ds : Nat → Draws K)
    (w : World K) (r : World K × List (Visit K))
    (h : organismPassLog cv M ds w = .ok r) :
    r.2.length = w.organisms.length ∧
    r.2.map (fun v => (v.index, some v.before)) =
      (List.range w.organisms.length).reverse.map (fun j => (j, w.organisms[j]?)) ∧
    (∀ v ∈ r.2, ∃ foods orgs res,
      v.before.move cv M (ds v.index) foods orgs = .ok res ∧
      v.after = res.1 ∧ res.2.2 = orgs ++ v.born) ∧
    r.1.organisms =
      (r.2.reverse.filter (fun v => !v.after.isStarved)).map (fun v => v.after)
        ++ r.2.flatMap (fun v => v.born) ∧
    (∀ v ∈ r.2, ∀ k ∈ v.born, k ∈ r.1.organisms) ∧
    organismPass cv M ds w = .ok r.1 := by
  obtain ⟨hmap, hmoves, hfinal⟩ := organismPassLog_spec cv M ds w r h
  refine ⟨?_, hmap, hmoves, hfinal, ?_, ?_⟩
  · have := congrArg List.length hmap
    simpa using this
  · intro v hv k hk
    rw [hfinal]
    exact List.mem_append_right _ (List.mem_flatMap.2 ⟨v, hv, hk⟩)
  · unfold organismPass
    rw [h]

/-- Witness for C4: from `world0` the pass updates the objects at indices 2, 1
and 0; the first iteration pushes two offspring, the second removes its
organism, and the offspring are not updated. -/
theorem pass_updates_each_once_witness :
    organismPassLog canvas0 axisMath (fun _ => zeroDraws) world0 = .ok (world1, visits0) ∧
    visits0.length = world0.organisms.length ∧
    visits0.map (fun v => (v.index, some v.before)) =
      (List.range world0.organisms.length).reverse.map
        (fun j => (j, world0.organisms[j]?)) ∧
    (∀ v ∈ visits0, ∀ k ∈ v.born, k ∈ world1.organisms) := by
  have hpass : organismPassLog canvas0 axisMath (fun _ => zeroDraws) world0 =
      .ok (world1, visits0) := by
    with_unfolding_all rfl
  have t := pass_updates_each_once canvas0 axisMath (fun _ => zeroDraws) world0
    (world1, visits0) hpass
  exact ⟨hpass, t.1, t.2.1, t.2.2.2.2.1⟩

/-- C11: `grow` adds the growth rate to the radius and writes no other field;
it is a total function, and for an item built by the constructor the growth
rate is 1/100. -/
theorem grow_adds_rate (f : Food K) (x y radius : K) (color : String) :
    (f.grow).radius = f.radius + f.growthRate ∧
    f.grow = { f with radius := f.radius + f.growthRate } ∧
    (f.grow).x = f.x ∧ (f.grow).y = f.y ∧ (f.grow).color = f.color ∧
    (f.grow).growthRate = f.growthRate ∧
    (f.grow).replicationThreshold = f.replicationThreshold ∧
    (Food.new x y radius color).growthRate = 1 / 100 ∧
    ((Food.new x y radius color).grow).radius = radius + 1 / 100 :=
  ⟨rfl, rfl, rfl, rfl, rfl, rfl, rfl, rfl, rfl⟩

/-- The eating loop on an organism that is not full, entered at index `k` with
at least the remaining length to go: it removes the first item from `k` on that
overlaps the organism and marks the organism, or it finds no such item and
changes nothing. -/
theorem eatLoop_first (M : MathLib K) (n k : Nat) (o : Organism K)
    (foodItems : List (Food K)) (hnf : o.isFull = false)
    (hlen : foodItems.length ≤ k + n) :
    (∃ j food, k ≤ j ∧ foodItems[j]? = some food ∧ o.touches M food ∧
      (∀ i g, k ≤ i → i < j → foodItems[i]? = some g → ¬ o.touches M g) ∧
      Organism.eatLoop M n k o foodItems =
        ({ o with lastEaten := 0, isFull := true }, foodItems.eraseIdx j)) ∨
    ((∀ i g, k ≤ i → foodItems[i]? = some g → ¬ o.touches M g) ∧
      Organism.eatLoop M n k o foodItems = (o, foodItems)) := by
  induction n generalizing k with
  | zero =>
    right
    refine ⟨?_, rfl⟩
    intro i g hki hg
    have := (List.getElem?_eq_some.1 hg).1
    omega
  | succ n ih =>
    unfold Organism.eatLoop
    cases hk : foodItems[k]? with
    | none =>
      dsimp only
      rcases ih (k + 1) (by omega) with ⟨j, food, hj, hf, ht, hfirst, he⟩ | ⟨hnone, he⟩
      · left
        refine ⟨j, food, by omega, hf, ht, ?_, he⟩
        intro i g hki hij hg
        rcases Nat.eq_or_lt_of_le hki with rfl | hlt
        · rw [hk] at hg
          cases hg
        · exact hfirst i g hlt hij hg
      · right
        refine ⟨?_, he⟩
        intro i g hki hg
        rcases Nat.eq_or_lt_of_le hki with rfl | hlt
        · rw [hk] at hg
          cases hg
        · exact hnone i g hlt hg
    | some food =>
      dsimp only
      by_cases ht : M.hypot (o.x - food.x) (o.y - food.y) < o.radius + food.radius
      · left
        refine ⟨k, food, le_refl _, hk, ht, ?_, ?_⟩
        · intro i g hki hik
          omega
        · rw [if_pos ⟨ht, hnf⟩]
          exact eatLoop_full M n (k + 1) _ _ rfl
      · have hcond : ¬ (M.hypot (o.x - food.x) (o.y - food.y) < o.radius + food.radius ∧
            o.isFull = false) := fun h => ht h.1
        rw [if_neg hcond]
        rcases ih (k + 1) (by omega) with ⟨j, food2, hj, hf, ht2, hfirst, he⟩ | ⟨hnone, he⟩
        · left
          refine ⟨j, food2, by omega, hf, ht2, ?_, he⟩
          intro i g hki hij hg
          rcases Nat.eq_or_lt_of_le hki with rfl | hlt
          · rw [hk] at hg
            cases hg
            exact ht
          · exact hfirst i g hlt hij hg
        · right
          refine ⟨?_, he⟩
          intro i g hki hg
          rcases Nat.eq_or_lt_of_le hki with rfl | hlt
          · rw [hk] at hg
            cases hg
            exact ht
          · exact hnone i g hlt hg


/-- C12: in a completed `move`, with `p` the organism after the movement step:
if the organism was not full, either some item overlaps `p`, and then the item
removed is the overlapping item with the smallest index, the others keep their
order, the eating step leaves the organism full with timer 0, and the update
ends full with timer 2; or no item overlaps `p`, and then the food collection
is unchanged and the organism ends not full.  If the organism was full the
food collection is unchanged. -/
theorem eating_first_match (cv : Canvas K) (M : MathLib K) (d : Draws K)
    (o : Organism K) (foodItems : List (Food K)) (organisms : List (Organism K))
    (r : Organism K × List (Food K) × List (Organism K))
    (h : o.move cv M d foodItems organisms = .ok r) :
    ∃ o1, o.target M foodItems = .ok o1 ∧
      (o.isFull = false →
        (∃ j food, foodItems[j]? = some food ∧ ((o1.advance).bounce cv).touches M food ∧
          (∀ i g, i < j → foodItems[i]? = some g → ¬ ((o1.advance).bounce cv).touches M g) ∧
          r.2.1 = foodItems.eraseIdx j ∧
          (((o1.advance).bounce cv).eat M foodItems).1.isFull = true ∧
          (((o1.advance).bounce cv).eat M foodItems).1.lastEaten = 0 ∧
          r.1.isFull = true ∧ r.1.lastEaten = 2) ∨
        ((∀ g ∈ foodItems, ¬ ((o1.advance).bounce cv).touches M g) ∧
          r.2.1 = foodItems ∧ r.1.isFull = false)) ∧
      (o.isFull = true → r.2.1 = foodItems) := by
  obtain ⟨o1, ht, rfl⟩ := move_ok_unfold cv M d o foodItems organisms r h
  obtain ⟨px, py, c, s, h2⟩ := movement_shape cv M o o1 foodItems ht
  have hfull : ((o1.advance).bounce cv).isFull = o.isFull := by rw [h2]
  refine ⟨o1, ht, ?_, ?_⟩
  · intro hnf
    have hpnf : ((o1.advance).bounce cv).isFull = false := hfull.trans hnf
    have hth := tail_hunger d (((o1.advance).bounce cv).eat M foodItems).1 organisms
    rcases eatLoop_first M foodItems.length 0 ((o1.advance).bounce cv) foodItems hpnf
        (by omega) with ⟨j, food, _, hf, htouch, hfirst, he⟩ | ⟨hnone, he⟩
    · left
      have he2 : ((o1.advance).bounce cv).eat M foodItems =
          ({ (o1.advance).bounce cv with lastEaten := 0, isFull := true },
            foodItems.eraseIdx j) := he
      have hkeep := hth.2.1 (by rw [he2]) (by rw [he2]; norm_num)
      refine ⟨j, food, hf, htouch, fun i g hij hg => hfirst i g (Nat.zero_le _) hij hg,
        by rw [he2], by rw [he2], by rw [he2], hkeep.1, ?_⟩
      rw [hkeep.2, he2]
      norm_num
    · right
      have he2 : ((o1.advance).bounce cv).eat M foodItems =
          ((o1.advance).bounce cv, foodItems) := he
      refine ⟨?_, by rw [he2], ?_⟩
      · intro g hg
        obtain ⟨i, hi⟩ := List.mem_iff_getElem?.1 hg
        exact hnone i g (Nat.zero_le _) hi
      · exact (hth.2.2 (by rw [he2]; exact hpnf)).1
  · intro hf
    have hpf : ((o1.advance).bounce cv).isFull = true := hfull.trans hf
    have : ((o1.advance).bounce cv).eat M foodItems = ((o1.advance).bounce cv, foodItems) :=
      eatLoop_full M foodItems.length 0 _ _ hpf
    rw [this]

/-- Witness for C12: after its step to x = 101 the organism overlaps both
items; the one at index 0 is removed although the one at index 1 is closer. -/
theorem eating_first_match_witness :
    org0.move canvas0 axisMath zeroDraws [foodAt 103, foodAt 101] [org0] =
      .ok (stepped { org0 with lastEaten := 2, isFull := true }, [foodAt 101], [org0]) ∧
    ∃ o1, org0.target axisMath [foodAt 103, foodAt 101] = .ok o1 ∧
      (org0.isFull = false →
        (∃ j food, [foodAt 103, foodAt 101][j]? = some food ∧
          ((o1.advance).bounce canvas0).touches axisMath food ∧
          (∀ i g, i < j → [foodAt 103, foodAt 101][i]? = some g →
            ¬ ((o1.advance).bounce canvas0).touches axisMath g) ∧
          [foodAt 101] = [foodAt 103, foodAt 101].eraseIdx j ∧
          (((o1.advance).bounce canvas0).eat axisMath
            [foodAt 103, foodAt 101]).1.isFull = true ∧
          (((o1.advance).bounce canvas0).eat axisMath
            [foodAt 103, foodAt 101]).1.lastEaten = 0 ∧
          (stepped { org0 with lastEaten := 2, isFull := true }).isFull = true ∧
          (stepped { org0 with lastEaten := 2, isFull := true }).lastEaten = 2) ∨
        ((∀ g ∈ [foodAt 103, foodAt 101],
            ¬ ((o1.advance).bounce canvas0).touches axisMath g) ∧
          [foodAt 101] = [foodAt 103, foodAt 101] ∧
          (stepped { org0 with lastEaten := 2, isFull := true }).isFull = false)) ∧
      (org0.isFull = true → [foodAt 101] = [foodAt 103, foodAt 101]) := by
  have hmove : org0.move canvas0 axisMath zeroDraws [foodAt 103, foodAt 101] [org0] =
      .ok (stepped { org0 with lastEaten := 2, isFull := true }, [foodAt 101], [org0]) := by
    with_unfolding_all rfl
  exact ⟨hmove, eating_first_match canvas0 axisMath zeroDraws org0
    [foodAt 103, foodAt 101] [org0] _ hmove⟩

/-- The scan of lines 38-44 keeps the earliest item among those at the recorded
distance: every item before the recorded one is strictly farther. -/
theorem scan_foldl_first (M : MathLib K) (o : Organism K) (rest seen : List (Food K))
    (acc : Option (Food K) × K)
    (h1 : ∀ f, acc.1 = some f → M.hypot (o.x - f.x) (o.y - f.y) = acc.2 ∧
      ∃ pre post, seen = pre ++ f :: post ∧
        ∀ g ∈ pre, M.hypot (o.x - f.x) (o.y - f.y) < M.hypot (o.x - g.x) (o.y - g.y))
    (h2 : ∀ g ∈ seen, acc.2 ≤ M.hypot (o.x - g.x) (o.y - g.y)) :
    ∀ f, (rest.foldl (o.scanStep M) acc).1 = some f →
      ∃ pre post, seen ++ rest = pre ++ f :: post ∧
        ∀ g ∈ pre, M.hypot (o.x - f.x) (o.y - f.y) < M.hypot (o.x - g.x) (o.y - g.y) := by
  induction rest generalizing seen acc with
  | nil =>
    intro f hf
    obtain ⟨_, pre, post, hsplit, hpre⟩ := h1 f hf
    exact ⟨pre, post, by simpa using hsplit, hpre⟩
  | cons food rest ih =>
    intro f hf
    simp only [List.foldl_cons] at hf
    have := ih (seen ++ [food]) (o.scanStep M acc food) ?_ ?_ f hf
    · simpa using this
    · intro f2 hf2
      unfold Organism.scanStep at hf2 ⊢
      dsimp only at hf2 ⊢
      by_cases hlt : M.hypot (o.x - food.x) (o.y - food.y) < acc.2
      · rw [if_pos hlt] at hf2 ⊢
        simp only [Option.some.injEq] at hf2
        subst hf2
        refine ⟨rfl, seen, [], rfl, ?_⟩
        intro g hg
        exact lt_of_lt_of_le hlt (h2 g hg)
      · rw [if_neg hlt] at hf2 ⊢
        obtain ⟨hd, pre, post, hsplit, hpre⟩ := h1 f2 hf2
        exact ⟨hd, pre, post ++ [food], by rw [hsplit]; simp, hpre⟩
    · intro g hg
      unfold Organism.scanStep
      dsimp only
      simp only [List.mem_append, List.mem_singleton] at hg
      by_cases hlt : M.hypot (o.x - food.x) (o.y - food.y) < acc.2
      · rw [if_pos hlt]
        rcases hg with hg | rfl
        · exact le_trans (le_of_lt hlt) (h2 g hg)
        · exact le_refl _
      · rw [if_neg hlt]
        rcases hg with hg | rfl
        · exact h2 g hg
        · exact not_lt.1 hlt

/-- The item targeted by the scan is the earliest item of minimum distance. -/
theorem scan_first (M : MathLib K) (o : Organism K) (foodItems : List (Food K))
    (f : Food K) (h : o.scan M foodItems = some f) :
    ∃ pre post, foodItems = pre ++ f :: post ∧
      ∀ g ∈ pre, M.hypot (o.x - f.x) (o.y - f.y) < M.hypot (o.x - g.x) (o.y - g.y) := by
  have := scan_foldl_first M o foodItems [] ((none : Option (Food K)), (FOV_RADIUS : K))
    (fun f hf => by simp at hf) (fun g hg => by simp at hg) f h
  simpa using this

/-- The `reduce` of lines 57-62 from an accumulator that is the earliest item of
minimum distance among `seen` ends with the earliest item of minimum distance
among `seen ++ rest`. -/
theorem closer_foldl (M : MathLib K) (o : Organism K) (rest seen : List (Food K))
    (acc : Food K)
    (h1 : ∃ pre post, seen = pre ++ acc :: post ∧
      ∀ g ∈ pre, M.hypot (o.x - acc.x) (o.y - acc.y) < M.hypot (o.x - g.x) (o.y - g.y))
    (h2 : ∀ g ∈ seen, M.hypot (o.x - acc.x) (o.y - acc.y) ≤
      M.hypot (o.x - g.x) (o.y - g.y)) :
    (∃ pre post, seen ++ rest = pre ++ rest.foldl (o.closer M) acc :: post ∧
      ∀ g ∈ pre, M.hypot (o.x - (rest.foldl (o.closer M) acc).x)
          (o.y - (rest.foldl (o.closer M) acc).y) < M.hypot (o.x - g.x) (o.y - g.y)) ∧
    (∀ g ∈ seen ++ rest, M.hypot (o.x - (rest.foldl (o.closer M) acc).x)
        (o.y - (rest.foldl (o.closer M) acc).y) ≤ M.hypot (o.x - g.x) (o.y - g.y)) := by
  induction rest generalizing seen acc with
  | nil =>
    obtain ⟨pre, post, hsplit, hpre⟩ := h1
    exact ⟨⟨pre, post, by simpa using hsplit, hpre⟩, by simpa using h2⟩
  | cons food rest ih =>
    simp only [List.foldl_cons]
    have := ih (seen ++ [food]) (o.closer M acc food) ?_ ?_
    · simpa using this
    · unfold Organism.closer
      dsimp only
      by_cases hlt : M.hypot (o.x - food.x) (o.y - food.y) <
          M.hypot (o.x - acc.x) (o.y - acc.y)
      · rw [if_pos hlt]
        refine ⟨seen, [], rfl, ?_⟩
        intro g hg
        exact lt_of_lt_of_le hlt (h2 g hg)
      · rw [if_neg hlt]
        obtain ⟨pre, post, hsplit, hpre⟩ := h1
        exact ⟨pre, post ++ [food], by rw [hsplit]; simp, hpre⟩
    · intro g hg
      unfold Organism.closer
      dsimp only
      simp only [List.mem_append, List.mem_singleton] at hg
      by_cases hlt : M.hypot (o.x - food.x) (o.y - food.y) <
          M.hypot (o.x - acc.x) (o.y - acc.y)
      · rw [if_pos hlt]
        rcases hg with hg | rfl
        · exact le_trans (le_of_lt hlt) (h2 g hg)
        · exact le_refl _
      · rw [if_neg hlt]
        rcases hg with hg | rfl
        · exact h2 g hg
        · exact not_lt.1 hlt

/-- On a collection that is not empty the `reduce` of lines 57-62 returns the
earliest item of minimum distance over the whole collection. -/
theorem nearest_spec (M : MathLib K) (o : Organism K) (foodItems : List (Food K))
    (hne : foodItems ≠ []) :
    ∃ f, o.nearest M foodItems = .ok f ∧
      (∃ pre post, foodItems = pre ++ f :: post ∧
        ∀ g ∈ pre, M.hypot (o.x - f.x) (o.y - f.y) < M.hypot (o.x - g.x) (o.y - g.y)) ∧
      (∀ g ∈ foodItems,
        M.hypot (o.x - f.x) (o.y - f.y) ≤ M.hypot (o.x - g.x) (o.y - g.y)) := by
  cases foodItems with
  | nil => exact absurd rfl hne
  | cons first rest =>
    have := closer_foldl M o rest [first] first ⟨[], [], rfl, by simp⟩ (by simp)
    exact ⟨_, rfl, by simpa using this.1, by simpa using this.2⟩


/-- The targeting step of an organism that is not full is the branch of lines
35-54. -/
theorem target_of_not_full (M : MathLib K) (o : Organism K) (foodItems : List (Food K))
    (h : o.isFull = false) : o.target M foodItems = .ok (o.seek M foodItems) := by
  unfold Organism.target
  simp [h]

/-- The targeting step of a full organism is the branch of lines 56-66. -/
theorem target_of_full (M : MathLib K) (o : Organism K) (foodItems : List (Food K))
    (h : o.isFull = true) : o.target M foodItems = o.flee M foodItems := by
  unfold Organism.target
  simp [h]

/-- C13: the targeting step (lines 34-67).  For an organism that is not full
and a collection with an item closer than the field of view, the heading
becomes the host cosine and sine of the angle `atan2` of the offset towards an
item `f` that is the earliest item of minimum distance over the whole
collection and is inside the field of view; with no item closer than the field
of view the organism is unchanged.  For a full organism and a collection that
is not empty the heading becomes the host cosine and sine of the angle of the
offset from the earliest item of minimum distance over the whole collection
towards the organism, with no test against the field of view.  Whenever the
host values are exact for an offset of length `h > 0`, the heading is a unit
vector and `h` times the heading is the offset. -/
theorem targeting_picks_nearest (M : MathLib K) (o : Organism K)
    (foodItems : List (Food K)) :
    (o.isFull = false →
      (∃ g ∈ foodItems, M.hypot (o.x - g.x) (o.y - g.y) < FOV_RADIUS) →
      ∃ f pre post, foodItems = pre ++ f :: post ∧
        (∀ g ∈ pre, M.hypot (o.x - f.x) (o.y - f.y) < M.hypot (o.x - g.x) (o.y - g.y)) ∧
        (∀ g ∈ foodItems,
          M.hypot (o.x - f.x) (o.y - f.y) ≤ M.hypot (o.x - g.x) (o.y - g.y)) ∧
        M.hypot (o.x - f.x) (o.y - f.y) < FOV_RADIUS ∧
        o.target M foodItems =
          .ok { o with dx := M.cos (M.atan2 (f.y - o.y) (f.x - o.x)),
                       dy := M.sin (M.atan2 (f.y - o.y) (f.x - o.x)) }) ∧
    (o.isFull = false →
      (∀ g ∈ foodItems, ¬ M.hypot (o.x - g.x) (o.y - g.y) < FOV_RADIUS) →
      o.target M foodItems = .ok o) ∧
    (o.isFull = true → foodItems ≠ [] →
      ∃ f pre post, foodItems = pre ++ f :: post ∧
        (∀ g ∈ pre, M.hypot (o.x - f.x) (o.y - f.y) < M.hypot (o.x - g.x) (o.y - g.y)) ∧
        (∀ g ∈ foodItems,
          M.hypot (o.x - f.x) (o.y - f.y) ≤ M.hypot (o.x - g.x) (o.y - g.y)) ∧
        o.target M foodItems =
          .ok { o with dx := M.cos (M.atan2 (o.y - f.y) (o.x - f.x)),
                       dy := M.sin (M.atan2 (o.y - f.y) (o.x - f.x)) }) ∧
    (∀ a b h : K, 0 < h → h * h = a ^ 2 + b ^ 2 →
      M.cos (M.atan2 b a) * h = a → M.sin (M.atan2 b a) * h = b →
      M.cos (M.atan2 b a) ^ 2 + M.sin (M.atan2 b a) ^ 2 = 1) := by
  refine ⟨?_, ?_, ?_, ?_⟩
  · intro hnf hfov
    obtain ⟨f, hs⟩ := (scan_spec M o foodItems).2 hfov
    obtain ⟨_, hlt, hmin⟩ := (scan_spec M o foodItems).1 f hs
    obtain ⟨pre, post, hsplit, hpre⟩ := scan_first M o foodItems f hs
    refine ⟨f, pre, post, hsplit, hpre, hmin, hlt, ?_⟩
    rw [target_of_not_full M o foodItems hnf]
    unfold Organism.seek
    rw [hs]
  · intro hnf hnone
    have hs : o.scan M foodItems = none := by
      cases hsc : o.scan M foodItems with
      | none => rfl
      | some f =>
        obtain ⟨hm, hlt, _⟩ := (scan_spec M o foodItems).1 f hsc
        exact absurd hlt (hnone f hm)
    rw [target_of_not_full M o foodItems hnf]
    unfold Organism.seek
    rw [hs]
  · intro hf hne
    obtain ⟨f, hn, ⟨pre, post, hsplit, hpre⟩, hmin⟩ := nearest_spec M o foodItems hne
    refine ⟨f, pre, post, hsplit, hpre, hmin, ?_⟩
    rw [target_of_full M o foodItems hf]
    unfold Organism.flee
    rw [hn]
  · intro a b h hpos hh hc hs
    generalize M.cos (M.atan2 b a) = c at hc
    generalize M.sin (M.atan2 b a) = s at hs
    have e1 : (c ^ 2 + s ^ 2) * (h * h) = 1 * (h * h) := by
      calc (c ^ 2 + s ^ 2) * (h * h) = (c * h) ^ 2 + (s * h) ^ 2 := by ring
        _ = a ^ 2 + b ^ 2 := by rw [hc, hs]
        _ = 1 * (h * h) := by rw [← hh, one_mul]
    exact mul_right_cancel₀ (ne_of_gt (mul_pos hpos hpos)) e1

/-- Witness for C13: the nearer item at index 1 is targeted; an item at
distance 60 is not; a full organism turns away from the nearer of two items
that are both outside the field of view. -/
theorem targeting_picks_nearest_witness :
    (∃ f pre post, [foodAt 103, foodAt 101] = pre ++ f :: post ∧
      (∀ g ∈ pre, axisMath.hypot (org0.x - f.x) (org0.y - f.y) <
        axisMath.hypot (org0.x - g.x) (org0.y - g.y)) ∧
      (∀ g ∈ [foodAt 103, foodAt 101],
        axisMath.hypot (org0.x - f.x) (org0.y - f.y) ≤
          axisMath.hypot (org0.x - g.x) (org0.y - g.y)) ∧
      axisMath.hypot (org0.x - f.x) (org0.y - f.y) < FOV_RADIUS ∧
      org0.target axisMath [foodAt 103, foodAt 101] =
        .ok { org0 with dx := axisMath.cos (axisMath.atan2 (f.y - org0.y) (f.x - org0.x)),
                        dy := axisMath.sin (axisMath.atan2 (f.y - org0.y) (f.x - org0.x)) }) ∧
    org0.target axisMath [foodAt 103, foodAt 101] = .ok { org0 with dx := 1, dy := 0 } ∧
    org0.target axisMath [foodAt 160] = .ok org0 ∧
    (∃ f pre post, [foodAt 20, foodAt 30] = pre ++ f :: post ∧
      (∀ g ∈ pre, axisMath.hypot ((fullOrg 10).x - f.x) ((fullOrg 10).y - f.y) <
        axisMath.hypot ((fullOrg 10).x - g.x) ((fullOrg 10).y - g.y)) ∧
      (∀ g ∈ [foodAt 20, foodAt 30],
        axisMath.hypot ((fullOrg 10).x - f.x) ((fullOrg 10).y - f.y) ≤
          axisMath.hypot ((fullOrg 10).x - g.x) ((fullOrg 10).y - g.y)) ∧
      (fullOrg 10).target axisMath [foodAt 20, foodAt 30] =
        .ok { fullOrg 10 with
          dx := axisMath.cos (axisMath.atan2 ((fullOrg 10).y - f.y) ((fullOrg 10).x - f.x)),
          dy := axisMath.sin
            (axisMath.atan2 ((fullOrg 10).y - f.y) ((fullOrg 10).x - f.x)) }) ∧
    (fullOrg 10).target axisMath [foodAt 20, foodAt 30] =
      .ok { fullOrg 10 with dx := 1, dy := 0 } := by
  have hfov : ∃ g ∈ [foodAt 103, foodAt 101],
      axisMath.hypot (org0.x - g.x) (org0.y - g.y) < FOV_RADIUS :=
    ⟨foodAt 101, by simp, by
      norm_num [axisMath, org0, foodAt, Organism.new, Food.new, FOV_RADIUS, abs_of_neg]⟩
  have hfar : ∀ g ∈ [foodAt 160],
      ¬ axisMath.hypot (org0.x - g.x) (org0.y - g.y) < FOV_RADIUS := by
    intro g hg
    simp only [List.mem_singleton] at hg
    subst hg
    norm_num [axisMath, org0, foodAt, Organism.new, Food.new, FOV_RADIUS, abs_of_neg]
  exact ⟨(targeting_picks_nearest axisMath org0 [foodAt 103, foodAt 101]).1 rfl hfov,
    by with_unfolding_all rfl,
    (targeting_picks_nearest axisMath org0 [foodAt 160]).2.1 rfl hfar,
    (targeting_picks_nearest axisMath (fullOrg 10) [foodAt 20, foodAt 30]).2.2.1 rfl
      (by simp),
    by with_unfolding_all rfl⟩

theorem cooldown_eq_spec (o : Organism K) : o.cooldown = Spec.cooldownStep o := by
  unfold Organism.cooldown Spec.cooldownStep
  by_cases h : o.canReproduce = true
  · simp [h]
  · have h2 : o.canReproduce = false := by simpa using h
    simp only [h2, if_true, Bool.false_eq_true, if_false]

theorem digest_eq_spec (o : Organism K) : o.digest = Spec.fullnessAccounting o := by
  unfold Organism.digest Spec.fullnessAccounting
  rfl

theorem tryReproduce_eq_spec (d : Draws K) (o : Organism K)
    (organisms : List (Organism K)) :
    o.tryReproduce d organisms = Spec.reproductionTrigger d o organisms := by
  unfold Organism.tryReproduce Spec.reproductionTrigger
  rfl

theorem maturity_eq_spec (o : Organism K) : o.maturity = Spec.maturityOverride o := by
  unfold Organism.maturity Spec.maturityOverride
  rfl

/-- C14 (the claim fails): a full organism that is ready to reproduce, with
hunger timer 298.  In the code the reproduction test reads 299 and fails, and
the fullness block then resets the timer; in the order the spec lists, the
timer is reset first, the test reads 0 and two offspring are pushed.  With
timer 248 it is the other way round: the code reads 249 and reproduces, the
listed order reads 250 and does not. -/
theorem move_differs_from_listed_order :
    (readyFull 298).move canvas0 axisMath zeroDraws [foodAt 90] [readyFull 298] =
      .ok (shifted { org0 with canReproduce := true },
        [foodAt 90], [readyFull 298]) ∧
    Spec.update canvas0 axisMath zeroDraws (readyFull 298) [foodAt 90] [readyFull 298] =
      .ok (shifted org0,
        [foodAt 90], [readyFull 298, kid1, kid1]) ∧
    (readyFull 248).move canvas0 axisMath zeroDraws [foodAt 90] [readyFull 248] =
      .ok (shifted (fullOrg 250),
        [foodAt 90], [readyFull 248, kid1, kid1]) ∧
    Spec.update canvas0 axisMath zeroDraws (readyFull 248) [foodAt 90] [readyFull 248] =
      .ok (shifted (readyFull 250),
        [foodAt 90], [readyFull 248]) ∧
    (readyFull 298).move canvas0 axisMath zeroDraws [foodAt 90] [readyFull 298] ≠
      Spec.update canvas0 axisMath zeroDraws (readyFull 298) [foodAt 90] [readyFull 298] := by
  have h1 : (readyFull 298).move canvas0 axisMath zeroDraws [foodAt 90] [readyFull 298] =
      .ok (shifted { org0 with canReproduce := true },
        [foodAt 90], [readyFull 298]) := by with_unfolding_all rfl
  have h2 : Spec.update canvas0 axisMath zeroDraws (readyFull 298) [foodAt 90]
      [readyFull 298] = .ok (shifted org0,
        [foodAt 90], [readyFull 298, kid1, kid1]) := by with_unfolding_all rfl
  refine ⟨h1, h2, by with_unfolding_all rfl, by with_unfolding_all rfl, ?_⟩
  rw [h1, h2]
  intro h
  have := congrArg (fun r => r.2.2.length) (Except.ok.inj h)
  simp at this

/-- C14 (amended): a completed `move` is the update of the spec with the
fullness part of step 4 run after step 7: targeting, movement, eating, the
increment of the hunger timer, cooldown, trigger, maturity override, fullness
accounting. -/
theorem move_refines_reordered_spec (cv : Canvas K) (M : MathLib K) (d : Draws K)
    (o : Organism K) (foodItems : List (Food K)) (organisms : List (Organism K))
    (r : Organism K × List (Food K) × List (Organism K))
    (h : o.move cv M d foodItems organisms = .ok r) :
    Spec.updateFullnessLast cv M d o foodItems organisms = .ok r := by
  rw [← h]
  unfold Spec.updateFullnessLast Organism.move
  cases o.target M foodItems with
  | error e => rfl
  | ok o1 =>
    dsimp only
    rw [digest_eq_spec, maturity_eq_spec, tryReproduce_eq_spec, cooldown_eq_spec]
    rfl

/-- Witness for the amended C14: the full organism with timer 298. -/
theorem move_refines_reordered_spec_witness :
    (readyFull 298).move canvas0 axisMath zeroDraws [foodAt 90] [readyFull 298] =
      .ok (shifted { org0 with canReproduce := true },
        [foodAt 90], [readyFull 298]) ∧
    Spec.updateFullnessLast canvas0 axisMath zeroDraws (readyFull 298) [foodAt 90]
      [readyFull 298] =
      .ok (shifted { org0 with canReproduce := true },
        [foodAt 90], [readyFull 298]) := by
  have h1 : (readyFull 298).move canvas0 axisMath zeroDraws [foodAt 90] [readyFull 298] =
      .ok (shifted { org0 with canReproduce := true },
        [foodAt 90], [readyFull 298]) := by with_unfolding_all rfl
  exact ⟨h1, move_refines_reordered_spec canvas0 axisMath zeroDraws (readyFull 298)
    [foodAt 90] [readyFull 298] _ h1⟩

theorem reproduce_length (d : Draws K) (o : Organism K) (organisms : List (Organism K)) :
    organisms.length < (o.reproduce d organisms).2.length := by
  unfold Organism.reproduce
  dsimp only
  split_ifs <;> simp

/-- The result of a completed `move` in terms of the organism at the
reproduction test. -/
theorem move_ok_trigger (cv : Canvas K) (M : MathLib K) (d : Draws K)
    (o : Organism K) (foodItems : List (Food K)) (organisms : List (Organism K))
    (r : Organism K × List (Food K) × List (Organism K))
    (h : o.move cv M d foodItems organisms = .ok r) :
    ∃ o1, o.target M foodItems = .ok o1 ∧
      r.1 = ((((o1.atTrigger cv M foodItems).tryReproduce d organisms).1).maturity).digest ∧
      r.2.2 = ((o1.atTrigger cv M foodItems).tryReproduce d organisms).2 := by
  obtain ⟨o1, ht, rfl⟩ := move_ok_unfold cv M d o foodItems organisms r h
  exact ⟨o1, ht, rfl, rfl⟩

/-- The organism at the reproduction test has the maximum hunger, the
probabilities, the cooldown length and the radius of the organism before the
call, and the ready flag and cooldown timer left by the cooldown block on the
flag and timer before the call. -/
theorem atTrigger_fields (cv : Canvas K) (M : MathLib K) (o o1 : Organism K)
    (foodItems : List (Food K)) (h : o.target M foodItems = .ok o1) :
    (o1.atTrigger cv M foodItems).maxLastEaten = o.maxLastEaten ∧
    (o1.atTrigger cv M foodItems).reproductionChance = o.reproductionChance ∧
    (o1.atTrigger cv M foodItems).extraReproductionChance = o.extraReproductionChance ∧
    (o1.atTrigger cv M foodItems).reproductionCooldown = o.reproductionCooldown ∧
    (o1.atTrigger cv M foodItems).radius = o.radius ∧
    (o1.atTrigger cv M foodItems).canReproduce = (o.cooldown).canReproduce ∧
    (o1.atTrigger cv M foodItems).reproductionTimer = (o.cooldown).reproductionTimer := by
  obtain ⟨px, py, c, s, h2⟩ := movement_shape cv M o o1 foodItems h
  obtain ⟨l0, f0, h0⟩ := eat_shape M ((o1.advance).bounce cv) foodItems
  unfold Organism.atTrigger
  rw [h0, h2]
  unfold Organism.cooldown Organism.tickHunger
  dsimp only
  split_ifs <;> exact ⟨rfl, rfl, rfl, rfl, rfl, rfl, rfl⟩

/-- C15: in a completed `move`, with `t` the organism at the reproduction test
(its ready flag is the one left by the cooldown block of this call): if the
hunger timer of `t` is below half of its maximum hunger, the draw is below its
reproduction probability and its ready flag is true, then `reproduce` is called
on `t`, the collection grows, and the ready flag is false after the test (and
at the end of the call unless the radius exceeds 10); otherwise the collection
is unchanged.  So the collection changes exactly when the three conditions
hold. -/
theorem reproduction_trigger (cv : Canvas K) (M : MathLib K) (d : Draws K)
    (o : Organism K) (foodItems : List (Food K)) (organisms : List (Organism K))
    (r : Organism K × List (Food K) × List (Organism K))
    (h : o.move cv M d foodItems organisms = .ok r) :
    ∃ o1, o.target M foodItems = .ok o1 ∧
      (o1.atTrigger cv M foodItems).canReproduce = (o.cooldown).canReproduce ∧
      (o1.atTrigger cv M foodItems).maxLastEaten = o.maxLastEaten ∧
      (o1.atTrigger cv M foodItems).reproductionChance = o.reproductionChance ∧
      (o1.atTrigger cv M foodItems).lastEaten =
        (((o1.advance).bounce cv).eat M foodItems).1.lastEaten + 1 ∧
      (((o1.atTrigger cv M foodItems).lastEaten <
            (o1.atTrigger cv M foodItems).maxLastEaten / 2 ∧
          d.trigger < (o1.atTrigger cv M foodItems).reproductionChance ∧
          (o1.atTrigger cv M foodItems).canReproduce = true) →
        r.2.2 = ((o1.atTrigger cv M foodItems).reproduce d organisms).2 ∧
        organisms.length < r.2.2.length ∧
        ((o1.atTrigger cv M foodItems).tryReproduce d organisms).1.canReproduce = false ∧
        (o.radius ≤ 10 → r.1.canReproduce = false)) ∧
      (¬ ((o1.atTrigger cv M foodItems).lastEaten <
            (o1.atTrigger cv M foodItems).maxLastEaten / 2 ∧
          d.trigger < (o1.atTrigger cv M foodItems).reproductionChance ∧
          (o1.atTrigger cv M foodItems).canReproduce = true) →
        r.2.2 = organisms) ∧
      (r.2.2 ≠ organisms ↔
        ((o1.atTrigger cv M foodItems).lastEaten <
            (o1.atTrigger cv M foodItems).maxLastEaten / 2 ∧
          d.trigger < (o1.atTrigger cv M foodItems).reproductionChance ∧
          (o1.atTrigger cv M foodItems).canReproduce = true)) := by
  obtain ⟨o1, ht, hr1, hr2⟩ := move_ok_trigger cv M d o foodItems organisms r h
  obtain ⟨hmax, hch, _, _, hrad, hcan, _⟩ := atTrigger_fields cv M o o1 foodItems ht
  have hlast : (o1.atTrigger cv M foodItems).lastEaten =
      (((o1.advance).bounce cv).eat M foodItems).1.lastEaten + 1 := by
    obtain ⟨b, t, hc⟩ := cooldown_shape (((o1.advance).bounce cv).eat M foodItems).1.tickHunger
    unfold Organism.atTrigger
    rw [hc]
    rfl
  have hyes : ((o1.atTrigger cv M foodItems).lastEaten <
        (o1.atTrigger cv M foodItems).maxLastEaten / 2 ∧
      d.trigger < (o1.atTrigger cv M foodItems).reproductionChance ∧
      (o1.atTrigger cv M foodItems).canReproduce = true) →
      r.2.2 = ((o1.atTrigger cv M foodItems).reproduce d organisms).2 ∧
      organisms.length < r.2.2.length ∧
      ((o1.atTrigger cv M foodItems).tryReproduce d organisms).1.canReproduce = false ∧
      (o.radius ≤ 10 → r.1.canReproduce = false) := by
    intro hc
    have htry : (o1.atTrigger cv M foodItems).tryReproduce d organisms =
        ({ ((o1.atTrigger cv M foodItems).reproduce d organisms).1 with
            canReproduce := false },
          ((o1.atTrigger cv M foodItems).reproduce d organisms).2) := by
      unfold Organism.tryReproduce
      rw [if_pos hc]
    refine ⟨by rw [hr2, htry], ?_, by rw [htry], ?_⟩
    · rw [hr2, htry]
      exact reproduce_length d _ organisms
    · intro hsmall
      rw [hr1, htry]
      obtain ⟨l, b, hd⟩ := digest_shape
        (({ ((o1.atTrigger cv M foodItems).reproduce d organisms).1 with
            canReproduce := false } : Organism K).maturity)
      rw [hd]
      dsimp only
      have hr : (((o1.atTrigger cv M foodItems).reproduce d organisms).1).radius = o.radius := by
        rw [reproduce_fst]
        exact hrad
      unfold Organism.maturity
      dsimp only
      rw [hr, if_neg (not_lt.2 hsmall)]
  have hno : ¬ ((o1.atTrigger cv M foodItems).lastEaten <
        (o1.atTrigger cv M foodItems).maxLastEaten / 2 ∧
      d.trigger < (o1.atTrigger cv M foodItems).reproductionChance ∧
      (o1.atTrigger cv M foodItems).canReproduce = true) → r.2.2 = organisms := by
    intro hc
    rw [hr2]
    unfold Organism.tryReproduce
    rw [if_neg hc]
  refine ⟨o1, ht, hcan, hmax, hch, hlast, hyes, hno, ?_⟩
  constructor
  · intro hne
    by_contra hc
    exact hne (hno hc)
  · intro hc heq
    have := (hyes hc).2.1
    rw [heq] at this
    exact lt_irrefl _ this


/-- Witness for C15: an organism that is ready reproduces in its first update,
so the three conditions hold at its reproduction test; a new organism, which
is not ready, leaves the collection unchanged. -/
theorem reproduction_trigger_witness :
    breeder.move canvas0 axisMath zeroDraws [] [breeder] =
      .ok ({ org0 with lastEaten := 1 }, [], [breeder, kid0, kid0]) ∧
    ((breeder.atTrigger canvas0 axisMath []).lastEaten <
        (breeder.atTrigger canvas0 axisMath []).maxLastEaten / 2 ∧
      zeroDraws.trigger < (breeder.atTrigger canvas0 axisMath []).reproductionChance ∧
      (breeder.atTrigger canvas0 axisMath []).canReproduce = true) ∧
    org0.move canvas0 axisMath zeroDraws [] [org0] =
      .ok ({ org0 with lastEaten := 1, reproductionTimer := 1 }, [], [org0]) ∧
    ¬ ((org0.atTrigger canvas0 axisMath []).lastEaten <
        (org0.atTrigger canvas0 axisMath []).maxLastEaten / 2 ∧
      zeroDraws.trigger < (org0.atTrigger canvas0 axisMath []).reproductionChance ∧
      (org0.atTrigger canvas0 axisMath []).canReproduce = true) := by
  have h1 : breeder.move canvas0 axisMath zeroDraws [] [breeder] =
      .ok ({ org0 with lastEaten := 1 }, [], [breeder, kid0, kid0]) := by
    with_unfolding_all rfl
  have h2 : org0.move canvas0 axisMath zeroDraws [] [org0] =
      .ok ({ org0 with lastEaten := 1, reproductionTimer := 1 }, [], [org0]) := by
    with_unfolding_all rfl
  obtain ⟨o1, ht1, _, _, _, _, _, _, hiff1⟩ :=
    reproduction_trigger canvas0 axisMath zeroDraws breeder [] [breeder] _ h1
  obtain ⟨o2, ht2, _, _, _, _, _, _, hiff2⟩ :=
    reproduction_trigger canvas0 axisMath zeroDraws org0 [] [org0] _ h2
  have e1 : o1 = breeder := by
    have : breeder.target axisMath [] = .ok breeder := by with_unfolding_all rfl
    rw [this] at ht1
    exact (Except.ok.inj ht1).symm
  have e2 : o2 = org0 := by
    have : org0.target axisMath [] = .ok org0 := by with_unfolding_all rfl
    rw [this] at ht2
    exact (Except.ok.inj ht2).symm
  subst e1 e2
  refine ⟨h1, hiff1.1 (by simp), h2, ?_⟩
  intro hc
  exact hiff2.2 hc rfl

/-- A completed `move` of an organism of radius above 10 ends with the ready
flag set. -/
theorem move_big_ready (cv : Canvas K) (M : MathLib K) (d : Draws K)
    (o : Organism K) (foodItems : List (Food K)) (organisms : List (Organism K))
    (r : Organism K × List (Food K) × List (Organism K))
    (hbig : 10 < o.radius) (h : o.move cv M d foodItems organisms = .ok r) :
    r.1.canReproduce = true ∧ r.1.radius = o.radius := by
  obtain ⟨o1, ht, hr1, _⟩ := move_ok_trigger cv M d o foodItems organisms r h
  obtain ⟨_, _, _, _, hrad, _, _⟩ := atTrigger_fields cv M o o1 foodItems ht
  obtain ⟨b, hb⟩ := tryReproduce_shape d (o1.atTrigger cv M foodItems) organisms
  obtain ⟨l, f, hd⟩ := digest_shape
    (((o1.atTrigger cv M foodItems).tryReproduce d organisms).1).maturity
  rw [hr1, hd, hb]
  dsimp only
  unfold Organism.maturity
  dsimp only
  rw [hrad, if_pos hbig]
  exact ⟨rfl, rfl⟩

/-- C17: a completed `move` of an organism whose radius exceeds 10 ends with the
ready flag true and the radius unchanged, whatever the cooldown block and the
reproduction test did; and in every next completed `move` the organism is ready
at the reproduction test, so `reproduce` is called as soon as the hunger timer
is below half of the maximum hunger and the draw is below the reproduction
probability, whatever the cooldown timer. -/
theorem maturity_override (cv : Canvas K) (M : MathLib K) (d : Draws K)
    (o : Organism K) (foodItems : List (Food K)) (organisms : List (Organism K))
    (r : Organism K × List (Food K) × List (Organism K))
    (hbig : 10 < o.radius) (h : o.move cv M d foodItems organisms = .ok r) :
    r.1.canReproduce = true ∧ r.1.radius = o.radius ∧
    ∀ (d2 : Draws K) (foodItems2 : List (Food K)) (organisms2 : List (Organism K))
      (r2 : Organism K × List (Food K) × List (Organism K)),
      r.1.move cv M d2 foodItems2 organisms2 = .ok r2 →
      r2.1.canReproduce = true ∧
      ∃ o1, r.1.target M foodItems2 = .ok o1 ∧
        (o1.atTrigger cv M foodItems2).canReproduce = true ∧
        ((o1.atTrigger cv M foodItems2).lastEaten < r.1.maxLastEaten / 2 →
          d2.trigger < r.1.reproductionChance →
          r2.2.2 = ((o1.atTrigger cv M foodItems2).reproduce d2 organisms2).2 ∧
          organisms2.length < r2.2.2.length) := by
  obtain ⟨hready, hrad⟩ := move_big_ready cv M d o foodItems organisms r hbig h
  refine ⟨hready, hrad, ?_⟩
  intro d2 foodItems2 organisms2 r2 h2
  have hbig2 : 10 < r.1.radius := by rw [hrad]; exact hbig
  refine ⟨(move_big_ready cv M d2 r.1 foodItems2 organisms2 r2 hbig2 h2).1, ?_⟩
  obtain ⟨o1, ht, _, hr2⟩ := move_ok_trigger cv M d2 r.1 foodItems2 organisms2 r2 h2
  obtain ⟨hmax, hch, _, _, _, hcan, _⟩ := atTrigger_fields cv M r.1 o1 foodItems2 ht
  have hcan2 : (o1.atTrigger cv M foodItems2).canReproduce = true := by
    rw [hcan]
    unfold Organism.cooldown
    simp [hready]
  refine ⟨o1, ht, hcan2, ?_⟩
  intro hl hd
  have hc : (o1.atTrigger cv M foodItems2).lastEaten <
        (o1.atTrigger cv M foodItems2).maxLastEaten / 2 ∧
      d2.trigger < (o1.atTrigger cv M foodItems2).reproductionChance ∧
      (o1.atTrigger cv M foodItems2).canReproduce = true :=
    ⟨by rw [hmax]; exact hl, by rw [hch]; exact hd, hcan2⟩
  have htry : ((o1.atTrigger cv M foodItems2).tryReproduce d2 organisms2).2 =
      ((o1.atTrigger cv M foodItems2).reproduce d2 organisms2).2 := by
    unfold Organism.tryReproduce
    rw [if_pos hc]
  refine ⟨by rw [hr2, htry], ?_⟩
  rw [hr2, htry]
  exact reproduce_length d2 _ organisms2

/-- Witness for C17: a new organism of radius 11 and cooldown length 600 is
ready after its first update and pushes two offspring in its second and again
in its third update. -/
theorem maturity_override_witness :
    bigOrg.move canvas0 axisMath zeroDraws [] [bigOrg] = .ok (bigReady 1, [], [bigOrg]) ∧
    (bigReady 1).move canvas0 axisMath zeroDraws [] [bigOrg] =
      .ok (bigReady 2, [], [bigOrg, kid0, kid0]) ∧
    (bigReady 2).move canvas0 axisMath zeroDraws [] [bigOrg, kid0, kid0] =
      .ok (bigReady 3, [], [bigOrg, kid0, kid0, kid0, kid0]) ∧
    (bigReady 1).canReproduce = true ∧ (bigReady 2).canReproduce = true ∧
    [bigOrg].length < [bigOrg, kid0, kid0].length := by
  have h1 : bigOrg.move canvas0 axisMath zeroDraws [] [bigOrg] =
      .ok (bigReady 1, [], [bigOrg]) := by with_unfolding_all rfl
  have h2 : (bigReady 1).move canvas0 axisMath zeroDraws [] [bigOrg] =
      .ok (bigReady 2, [], [bigOrg, kid0, kid0]) := by with_unfolding_all rfl
  have h3 : (bigReady 2).move canvas0 axisMath zeroDraws [] [bigOrg, kid0, kid0] =
      .ok (bigReady 3, [], [bigOrg, kid0, kid0, kid0, kid0]) := by with_unfolding_all rfl
  have t := maturity_override canvas0 axisMath zeroDraws bigOrg [] [bigOrg] _
    (by norm_num [bigOrg, Organism.new]) h1
  obtain ⟨hr2, o1, ht, _, hrep⟩ := t.2.2 zeroDraws [] [bigOrg] _ h2
  have e1 : o1 = bigReady 1 := by
    have : (bigReady 1).target axisMath [] = .ok (bigReady 1) := by with_unfolding_all rfl
    rw [this] at ht
    exact (Except.ok.inj ht).symm
  subst e1
  have hgrow := (hrep (by norm_num [Organism.atTrigger, Organism.cooldown,
      Organism.tickHunger, Organism.eat, Organism.eatLoop, Organism.bounce,
      Organism.advance, bigReady, bigOrg, Organism.new, canvas0])
    (by norm_num [zeroDraws, bigReady, bigOrg, Organism.new, REPRODUCTION_CHANCE])).2
  exact ⟨h1, h2, h3, t.1, hr2, hgrow⟩

/-- The ready flag, cooldown timer, radius and cooldown length at the end of a
completed `move` of an organism of radius at most 10. -/
theorem move_small_flags (cv : Canvas K) (M : MathLib K) (d : Draws K)
    (o : Organism K) (foodItems : List (Food K)) (organisms : List (Organism K))
    (r : Organism K × List (Food K) × List (Organism K))
    (hsmall : o.radius ≤ 10) (h : o.move cv M d foodItems organisms = .ok r) :
    ∃ o1, o.target M foodItems = .ok o1 ∧
      r.1.canReproduce =
        ((o1.atTrigger cv M foodItems).tryReproduce d organisms).1.canReproduce ∧
      r.1.reproductionTimer = (o.cooldown).reproductionTimer ∧
      r.1.radius = o.radius ∧ r.1.reproductionCooldown = o.reproductionCooldown ∧
      r.2.2 = ((o1.atTrigger cv M foodItems).tryReproduce d organisms).2 := by
  obtain ⟨o1, ht, hr1, hr2⟩ := move_ok_trigger cv M d o foodItems organisms r h
  obtain ⟨_, _, _, hcool, hrad, _, htimer⟩ := atTrigger_fields cv M o o1 foodItems ht
  obtain ⟨b, hb⟩ := tryReproduce_shape d (o1.atTrigger cv M foodItems) organisms
  obtain ⟨l, f, hd⟩ := digest_shape
    (((o1.atTrigger cv M foodItems).tryReproduce d organisms).1).maturity
  have hmat : (((o1.atTrigger cv M foodItems).tryReproduce d organisms).1).maturity =
      ((o1.atTrigger cv M foodItems).tryReproduce d organisms).1 := by
    unfold Organism.maturity
    rw [if_neg]
    rw [hb]
    dsimp only
    rw [hrad]
    exact not_lt.2 hsmall
  refine ⟨o1, ht, ?_, ?_, ?_, ?_, hr2⟩
  · rw [hr1, hd, hmat]
  · rw [hr1, hd, hmat, hb]
    exact htimer
  · rw [hr1, hd, hmat, hb]
    exact hrad
  · rw [hr1, hd, hmat, hb]
    exact hcool

/-- One completed `move` under the cooldown invariant: if it pushes offspring
then at least `c` calls have passed, this one included, and the count restarts;
otherwise the count goes up by one. -/
theorem cooldownInv_step (cv : Canvas K) (M : MathLib K) (d : Draws K)
    (p : Organism K) (foodItems : List (Food K)) (organisms : List (Organism K))
    (r : Organism K × List (Food K) × List (Organism K)) (c : K) (s : Nat)
    (hinv : CooldownInv c p s) (h : p.move cv M d foodItems organisms = .ok r) :
    (r.2.2 ≠ organisms → c ≤ (s : K) + 1 ∧ CooldownInv c r.1 0) ∧
    (r.2.2 = organisms → CooldownInv c r.1 (s + 1)) := by
  obtain ⟨hsmall, hc, hnot, hready⟩ := hinv
  obtain ⟨o1, ht, hcan, htimer, hrad, hcool, hr2⟩ :=
    move_small_flags cv M d p foodItems organisms r hsmall h
  obtain ⟨_, _, _, _, _, htcan, _⟩ := atTrigger_fields cv M p o1 foodItems ht
  have hs1 : ((s + 1 : ℕ) : K) = (s : K) + 1 := by push_cast; rfl
  -- the cooldown block on `p`
  have hblock : ((p.cooldown).canReproduce = true →
        (p.cooldown).reproductionTimer = 0 ∧ c ≤ (s : K) + 1) ∧
      ((p.cooldown).canReproduce = false →
        (p.cooldown).reproductionTimer = (s : K) + 1) := by
    by_cases hp : p.canReproduce = true
    · have h0 := hready hp
      have hcd : p.cooldown = p := by
        unfold Organism.cooldown
        rw [if_neg (by rw [hp]; exact Bool.noConfusion)]
      rw [hcd]
      refine ⟨fun _ => ⟨h0.1, by linarith [h0.2]⟩, fun hf => ?_⟩
      rw [hp] at hf
      cases hf
    · have hp2 : p.canReproduce = false := by simpa using hp
      have ht0 := hnot hp2
      by_cases hge : p.reproductionTimer + 1 ≥ p.reproductionCooldown
      · have hcd : p.cooldown = { p with canReproduce := true, reproductionTimer := 0 } := by
          unfold Organism.cooldown
          rw [if_pos hp2]
          dsimp only
          rw [if_pos hge]
        rw [hcd]
        refine ⟨fun _ => ⟨rfl, ?_⟩, fun hf => by cases hf⟩
        rw [← hc, ← ht0]
        exact hge
      · have hcd : p.cooldown = { p with reproductionTimer := p.reproductionTimer + 1 } := by
          unfold Organism.cooldown
          rw [if_pos hp2]
          dsimp only
          rw [if_neg hge]
        rw [hcd]
        refine ⟨fun hf => ?_, fun _ => by rw [← ht0]⟩
        have hf2 : p.canReproduce = true := hf
        rw [hp2] at hf2
        cases hf2
  by_cases hcond : (o1.atTrigger cv M foodItems).lastEaten <
        (o1.atTrigger cv M foodItems).maxLastEaten / 2 ∧
      d.trigger < (o1.atTrigger cv M foodItems).reproductionChance ∧
      (o1.atTrigger cv M foodItems).canReproduce = true
  · have htry : (o1.atTrigger cv M foodItems).tryReproduce d organisms =
        ({ ((o1.atTrigger cv M foodItems).reproduce d organisms).1 with
            canReproduce := false },
          ((o1.atTrigger cv M foodItems).reproduce d organisms).2) := by
      unfold Organism.tryReproduce
      rw [if_pos hcond]
    have hpc : (p.cooldown).canReproduce = true := by rw [← htcan]; exact hcond.2.2
    have hb := hblock.1 hpc
    have hfalse : r.1.canReproduce = false := by rw [hcan, htry]
    have hgrow : r.2.2 ≠ organisms := by
      intro heq
      have := reproduce_length d (o1.atTrigger cv M foodItems) organisms
      rw [hr2, htry] at heq
      dsimp only at heq
      rw [heq] at this
      exact lt_irrefl _ this
    refine ⟨fun _ => ⟨hb.2, ?_⟩, fun heq => absurd heq hgrow⟩
    refine ⟨by rw [hrad]; exact hsmall, by rw [hcool]; exact hc, ?_, ?_⟩
    · intro _
      rw [htimer, hb.1]
      simp
    · intro hf
      rw [hfalse] at hf
      cases hf
  · have htry : (o1.atTrigger cv M foodItems).tryReproduce d organisms =
        (o1.atTrigger cv M foodItems, organisms) := by
      unfold Organism.tryReproduce
      rw [if_neg hcond]
    have hsame : r.2.2 = organisms := by rw [hr2, htry]
    have hcan2 : r.1.canReproduce = (p.cooldown).canReproduce := by
      rw [hcan, htry]
      exact htcan
    refine ⟨fun hne => absurd hsame hne, fun _ => ?_⟩
    refine ⟨by rw [hrad]; exact hsmall, by rw [hcool]; exact hc, ?_, ?_⟩
    · intro hf
      rw [htimer, hs1]
      exact hblock.2 (hcan2 ▸ hf)
    · intro hf
      rw [htimer, hs1]
      exact hblock.1 (hcan2 ▸ hf)


/-- The call number `n` of `move` is made on the organism left by the first `n`
calls. -/
theorem updateAt_ok (cv : Canvas K) (M : MathLib K) (ins : Nat → StepInput K)
    (o : Organism K) (n : Nat) (r : Organism K × List (Food K) × List (Organism K))
    (h : o.updateAt cv M ins n = .ok r) :
    ∃ p, o.afterUpdates cv M ins n = .ok p ∧
      p.move cv M (ins n).draws (ins n).foodItems (ins n).organisms = .ok r := by
  unfold Organism.updateAt at h
  cases hp : o.afterUpdates cv M ins n with
  | error e => simp [hp] at h
  | ok p =>
    simp only [hp] at h
    exact ⟨p, rfl, h⟩

/-- The organism after `n + 1` calls is the one returned by the call number
`n`. -/
theorem afterUpdates_succ_ok (cv : Canvas K) (M : MathLib K) (ins : Nat → StepInput K)
    (o : Organism K) (n : Nat) (q : Organism K)
    (h : o.afterUpdates cv M ins (n + 1) = .ok q) :
    ∃ p r, o.afterUpdates cv M ins n = .ok p ∧
      p.move cv M (ins n).draws (ins n).foodItems (ins n).organisms = .ok r ∧
      o.updateAt cv M ins n = .ok r ∧ q = r.1 := by
  rw [Organism.afterUpdates] at h
  cases hp : o.afterUpdates cv M ins n with
  | error e => simp [hp] at h
  | ok p =>
    simp only [hp] at h
    cases hm : p.move cv M (ins n).draws (ins n).foodItems (ins n).organisms with
    | error e => simp [hm] at h
    | ok r =>
      simp only [hm, Except.ok.injEq] at h
      refine ⟨p, r, rfl, hm, ?_, h.symm⟩
      unfold Organism.updateAt
      rw [hp]
      exact hm

/-- Along the updates of an organism that starts under the cooldown invariant
with count 0, the organism after `n` calls satisfies the invariant with a count
`s` that is at most `n` and at most the number of calls made since any call
that pushed offspring. -/
theorem cooldownInv_run (cv : Canvas K) (M : MathLib K) (ins : Nat → StepInput K)
    (o : Organism K) (c : K) (h0 : CooldownInv c o 0) :
    ∀ n p, o.afterUpdates cv M ins n = .ok p →
      ∃ s, CooldownInv c p s ∧ s ≤ n ∧
        ∀ i, i < n → o.reproducesAt cv M ins i → s + (i + 1) ≤ n := by
  intro n
  induction n with
  | zero =>
    intro p hp
    simp only [Organism.afterUpdates, Except.ok.injEq] at hp
    subst hp
    exact ⟨0, h0, le_refl _, fun i hi => absurd hi (Nat.not_lt_zero i)⟩
  | succ n ih =>
    intro q hq
    obtain ⟨p, r, hp, hm, hu, rfl⟩ := afterUpdates_succ_ok cv M ins o n q hq
    obtain ⟨s, hinv, hsn, hgap⟩ := ih p hp
    have hstep := cooldownInv_step cv M _ p _ _ r c s hinv hm
    by_cases hev : r.2.2 = (ins n).organisms
    · refine ⟨s + 1, hstep.2 hev, by omega, ?_⟩
      intro i hi hri
      rcases Nat.eq_or_lt_of_le (Nat.le_of_lt_succ hi) with rfl | hlt
      · obtain ⟨r2, hu2, hne⟩ := hri
        rw [hu] at hu2
        cases hu2
        exact absurd hev hne
      · have := hgap i hlt hri
        omega
    · refine ⟨0, (hstep.1 hev).2, by omega, ?_⟩
      intro i hi _
      omega

/-- C16: for an organism built by the constructor with radius at most 10 and
cooldown length `c`, along any sequence of its updates (any draws, any contents
of the two arrays): a call of `move` that pushes offspring is at least the
`c`-th call, and two calls that push offspring are at least `c` calls apart. -/
theorem cooldown_minimum_interval (cv : Canvas K) (M : MathLib K)
    (ins : Nat → StepInput K) (x y radius maxLastEaten c r1 r2 : K)
    (hsmall : radius ≤ 10) :
    (∀ n, (Organism.new x y radius maxLastEaten c r1 r2).reproducesAt cv M ins n →
      c ≤ ((n + 1 : ℕ) : K)) ∧
    (∀ i j, i < j →
      (Organism.new x y radius maxLastEaten c r1 r2).reproducesAt cv M ins i →
      (Organism.new x y radius maxLastEaten c r1 r2).reproducesAt cv M ins j →
      c ≤ ((j - i : ℕ) : K)) := by
  have h0 : CooldownInv c (Organism.new x y radius maxLastEaten c r1 r2) 0 := by
    refine ⟨hsmall, rfl, fun _ => ?_, fun hf => ?_⟩
    · simp [Organism.new]
    · simp [Organism.new] at hf
  have key : ∀ j, (Organism.new x y radius maxLastEaten c r1 r2).reproducesAt cv M ins j →
      ∃ s : ℕ, c ≤ (s : K) + 1 ∧ s ≤ j ∧
        ∀ i, i < j →
          (Organism.new x y radius maxLastEaten c r1 r2).reproducesAt cv M ins i →
          s + (i + 1) ≤ j := by
    intro j hj
    obtain ⟨r, hu, hne⟩ := hj
    obtain ⟨p, hp, hm⟩ := updateAt_ok cv M ins _ j r hu
    obtain ⟨s, hinv, hsj, hgap⟩ := cooldownInv_run cv M ins _ c h0 j p hp
    exact ⟨s, ((cooldownInv_step cv M _ p _ _ r c s hinv hm).1 hne).1, hsj, hgap⟩
  refine ⟨?_, ?_⟩
  · intro n hn
    obtain ⟨s, hc, hsn, _⟩ := key n hn
    have : ((s : ℕ) : K) + 1 ≤ ((n + 1 : ℕ) : K) := by
      have h1 : s + 1 ≤ n + 1 := by omega
      exact_mod_cast h1
    exact le_trans hc this
  · intro i j hij hi hj
    obtain ⟨s, hc, _, hgap⟩ := key j hj
    have hnat : s + 1 ≤ j - i := by
      have := hgap i hij hi
      omega
    have : ((s : ℕ) : K) + 1 ≤ ((j - i : ℕ) : K) := by exact_mod_cast hnat
    exact le_trans hc this

/-- Witness for C16: an organism with cooldown length 2 that reproduces as soon
as it is ready pushes offspring in its calls number 1 and 3 (its second and
fourth update), two calls apart. -/
theorem cooldown_minimum_interval_witness :
    quickOrg.reproducesAt canvas0 axisMath quietInputs 1 ∧
    quickOrg.reproducesAt canvas0 axisMath quietInputs 3 ∧
    (2 : ℚ) ≤ ((1 + 1 : ℕ) : ℚ) ∧ (2 : ℚ) ≤ ((3 - 1 : ℕ) : ℚ) := by
  have e1 : quickOrg.reproducesAt canvas0 axisMath quietInputs 1 :=
    ⟨({ quickOrg with lastEaten := 2 }, [],
        [quickOrg, Organism.new 90 90 5 500 2 0 0, Organism.new 90 90 5 500 2 0 0]),
      by with_unfolding_all rfl, by simp [quietInputs]⟩
  have e3 : quickOrg.reproducesAt canvas0 axisMath quietInputs 3 :=
    ⟨({ quickOrg with lastEaten := 4 }, [],
        [quickOrg, Organism.new 90 90 5 500 2 0 0, Organism.new 90 90 5 500 2 0 0]),
      by with_unfolding_all rfl, by simp [quietInputs]⟩
  have t := cooldown_minimum_interval canvas0 axisMath quietInputs 100 100 5 500 2
    (1 / 2) (1 / 2) (by norm_num)
  exact ⟨e1, e3, t.1 1 e1, t.2 1 3 (by decide) e1 e3⟩

/-- A completed `move` of a full organism leaves the food collection as it
was. -/
theorem move_full_keeps_food (cv : Canvas K) (M : MathLib K) (d : Draws K)
    (o : Organism K) (foodItems : List (Food K)) (organisms : List (Organism K))
    (r : Organism K × List (Food K) × List (Organism K))
    (hfull : o.isFull = true) (h : o.move cv M d foodItems organisms = .ok r) :
    r.2.1 = foodItems := by
  obtain ⟨o1, ht, rfl⟩ := move_ok_unfold cv M d o foodItems organisms r h
  obtain ⟨px, py, c, s, h2⟩ := movement_shape cv M o o1 foodItems ht
  have hpf : ((o1.advance).bounce cv).isFull = true := by rw [h2]; exact hfull
  have : ((o1.advance).bounce cv).eat M foodItems = ((o1.advance).bounce cv, foodItems) :=
    eatLoop_full M foodItems.length 0 _ _ hpf
  rw [this]

/-- One `move` of a full organism on a collection that is not empty: it
completes, leaves the food as it was, and adds 2 to the hunger timer, keeping
the organism full when the new value is below 300 and clearing the flag and the
timer otherwise. -/
theorem full_step (cv : Canvas K) (M : MathLib K) (d : Draws K)
    (o : Organism K) (foodItems : List (Food K)) (organisms : List (Organism K))
    (hfull : o.isFull = true) (hfood : foodItems ≠ []) :
    ∃ r, o.move cv M d foodItems organisms = .ok r ∧ r.2.1 = foodItems ∧
      (o.lastEaten + 2 < 300 → r.1.isFull = true ∧ r.1.lastEaten = o.lastEaten + 2) ∧
      (300 ≤ o.lastEaten + 2 → r.1.isFull = false ∧ r.1.lastEaten = 0) := by
  obtain ⟨r, hr⟩ := (move_ok_iff cv M d o foodItems organisms).2 (Or.inr hfood)
  obtain ⟨full, timer, hcase, hclear, hkeep, _⟩ :=
    move_hunger cv M d o foodItems organisms r hr
  have h2 : ∀ t : K, t + 1 + 1 = t + 2 := fun t => by ring
  refine ⟨r, hr, move_full_keeps_food cv M d o foodItems organisms r hfull hr, ?_, ?_⟩
  · intro hlt
    rcases hcase with ⟨rfl, rfl⟩ | ⟨hnf, _, _⟩
    · have := hkeep hfull (by rw [h2]; exact not_le.2 hlt)
      rwa [h2] at this
    · rw [hfull] at hnf
      cases hnf
  · intro hge
    rcases hcase with ⟨rfl, rfl⟩ | ⟨hnf, _, _⟩
    · exact hclear hfull (by rw [h2]; exact hge)
    · rw [hfull] at hnf
      cases hnf

/-- The organism after `n + 1` calls, from the organism after `n` calls and the
result of the call number `n`. -/
theorem afterUpdates_succ_of (cv : Canvas K) (M : MathLib K) (ins : Nat → StepInput K)
    (o p : Organism K) (n : Nat) (r : Organism K × List (Food K) × List (Organism K))
    (hp : o.afterUpdates cv M ins n = .ok p)
    (hm : p.move cv M (ins n).draws (ins n).foodItems (ins n).organisms = .ok r) :
    o.afterUpdates cv M ins (n + 1) = .ok r.1 ∧ o.updateAt cv M ins n = .ok r := by
  constructor
  · rw [Organism.afterUpdates, hp]
    simp only [hm]
  · unfold Organism.updateAt
    rw [hp]
    exact hm

/-- While the collection found is never empty, an organism that is full with
timer 2 after its first call is full with timer `2 * k` after `k` calls, for
`k` from 1 to 149. -/
theorem full_run (cv : Canvas K) (M : MathLib K) (ins : Nat → StepInput K)
    (o o1 : Organism K) (h1 : o.afterUpdates cv M ins 1 = .ok o1)
    (hfull : o1.isFull = true) (htimer : o1.lastEaten = 2)
    (hfood : ∀ n, 1 ≤ n → n < 150 → (ins n).foodItems ≠ []) :
    ∀ k, 1 ≤ k → k ≤ 149 →
      ∃ p, o.afterUpdates cv M ins k = .ok p ∧ p.isFull = true ∧
        p.lastEaten = 2 * (k : K) := by
  intro k
  induction k with
  | zero => intro h; omega
  | succ k ih =>
    intro _ hk
    rcases Nat.eq_zero_or_pos k with rfl | hpos
    · exact ⟨o1, h1, hfull, by rw [htimer]; norm_num⟩
    · obtain ⟨p, hp, hpf, hpt⟩ := ih hpos (by omega)
      obtain ⟨r, hr, _, hkeep, _⟩ := full_step cv M (ins k).draws p (ins k).foodItems
        (ins k).organisms hpf (hfood k hpos (by omega))
      have hk148 : (k : K) ≤ 148 := by
        have : k ≤ 148 := by omega
        exact_mod_cast this
      have hlt : p.lastEaten + 2 < 300 := by rw [hpt]; linarith
      obtain ⟨hf2, ht2⟩ := hkeep hlt
      refine ⟨r.1, (afterUpdates_succ_of cv M ins o p k r hp hr).1, hf2, ?_⟩
      rw [ht2, hpt]
      push_cast
      ring

/-- With food present at each later update: an organism that is not full,
whose first update completes and leaves it full (it ate in that update), and
whose next 149 updates find a food collection that is not empty: after `k`
updates, for `k` from 1 to 149, it is full with hunger timer `2 * k`; each of
the updates 2 to 150 completes and leaves the food collection as it found it;
and after the 150th update it is not full and its timer is 0. -/
theorem fullness_lasts_150_updates (cv : Canvas K) (M : MathLib K)
    (ins : Nat → StepInput K) (o o1 : Organism K) (hnf : o.isFull = false)
    (h1 : o.afterUpdates cv M ins 1 = .ok o1) (hate : o1.isFull = true)
    (hfood : ∀ n, 1 ≤ n → n < 150 → (ins n).foodItems ≠ []) :
    o1.lastEaten = 2 ∧
    (∀ k, 1 ≤ k → k ≤ 149 →
      ∃ p, o.afterUpdates cv M ins k = .ok p ∧ p.isFull = true ∧
        p.lastEaten = 2 * (k : K)) ∧
    (∀ n, 1 ≤ n → n < 150 →
      ∃ r, o.updateAt cv M ins n = .ok r ∧ r.2.1 = (ins n).foodItems) ∧
    ∃ q, o.afterUpdates cv M ins 150 = .ok q ∧ q.isFull = false ∧ q.lastEaten = 0 := by
  have htimer : o1.lastEaten = 2 := by
    obtain ⟨p, r, hp, hm, _, rfl⟩ := afterUpdates_succ_ok cv M ins o 0 o1 h1
    simp only [Organism.afterUpdates, Except.ok.injEq] at hp
    subst hp
    obtain ⟨full, timer, hcase, hclear, hkeep, hidle⟩ :=
      move_hunger cv M _ _ _ _ r hm
    rcases hcase with ⟨rfl, rfl⟩ | ⟨_, rfl, rfl⟩
    · rw [(hidle hnf).1] at hate
      cases hate
    · have hlt : ¬ (0 : K) + 1 + 1 ≥ 300 := by norm_num
      rw [(hkeep rfl hlt).2]
      norm_num
  have hrun := full_run cv M ins o o1 h1 hate htimer hfood
  refine ⟨htimer, hrun, ?_, ?_⟩
  · intro n hn1 hn150
    obtain ⟨p, hp, hpf, _⟩ := hrun n hn1 (by omega)
    obtain ⟨r, hr, hfoods, _, _⟩ := full_step cv M (ins n).draws p (ins n).foodItems
      (ins n).organisms hpf (hfood n hn1 hn150)
    exact ⟨r, (afterUpdates_succ_of cv M ins o p n r hp hr).2, hfoods⟩
  · obtain ⟨p, hp, hpf, hpt⟩ := hrun 149 (by omega) (le_refl _)
    obtain ⟨r, hr, _, _, hclear⟩ := full_step cv M (ins 149).draws p (ins 149).foodItems
      (ins 149).organisms hpf (hfood 149 (by omega) (by omega))
    have hge : (300 : K) ≤ p.lastEaten + 2 := by
      rw [hpt]
      push_cast
      norm_num
    obtain ⟨hf, ht⟩ := hclear hge
    exact ⟨r.1, (afterUpdates_succ_of cv M ins o p 149 r hp hr).1, hf, ht⟩

/-- An instance of `fullness_lasts_150_updates`: the organism eats the item at
x = 101 in its first update and then keeps an item behind it. -/
theorem fullness_lasts_150_updates_witness :
    org0.isFull = false ∧
    org0.afterUpdates canvas0 axisMath mealInputs 1 =
      .ok (stepped { org0 with lastEaten := 2, isFull := true }) ∧
    (∃ p, org0.afterUpdates canvas0 axisMath mealInputs 149 = .ok p ∧ p.isFull = true ∧
      p.lastEaten = 2 * ((149 : ℕ) : ℚ)) ∧
    ∃ q, org0.afterUpdates canvas0 axisMath mealInputs 150 = .ok q ∧ q.isFull = false ∧
      q.lastEaten = 0 := by
  have h1 : org0.afterUpdates canvas0 axisMath mealInputs 1 =
      .ok (stepped { org0 with lastEaten := 2, isFull := true }) := by
    with_unfolding_all rfl
  have hfood : ∀ n, 1 ≤ n → n < 150 → (mealInputs n).foodItems ≠ [] := by
    intro n hn _
    have hne : n ≠ 0 := by omega
    simp [mealInputs, hne]
  have t := fullness_lasts_150_updates canvas0 axisMath mealInputs org0 _ rfl h1 rfl hfood
  exact ⟨rfl, h1, t.2.1 149 (by decide) (le_refl _), t.2.2.2⟩

/-- A completed `move` keeps the radius, the maximum hunger and the cooldown
length of the organism. -/
theorem move_keeps_parameters (cv : Canvas K) (M : MathLib K) (d : Draws K)
    (o : Organism K) (foodItems : List (Food K)) (organisms : List (Organism K))
    (r : Organism K × List (Food K) × List (Organism K))
    (h : o.move cv M d foodItems organisms = .ok r) :
    r.1.radius = o.radius ∧ r.1.maxLastEaten = o.maxLastEaten ∧
    r.1.reproductionCooldown = o.reproductionCooldown := by
  obtain ⟨o1, c, s, l, full, b, t, _, hshape⟩ := move_shape cv M d o foodItems organisms r h
  rw [hshape]
  exact ⟨rfl, rfl, rfl⟩

/-- A completed organism pass from a world whose organisms all have radius 5,
maximum hunger 500 and cooldown length 600 ends in such a world. -/
theorem organismPass_keeps_parameters (cv : Canvas K) (M : MathLib K)
    (ds : Nat → Draws K) (w w2 : World K)
    (hw : ∀ o ∈ w.organisms,
      o.radius = 5 ∧ o.maxLastEaten = 500 ∧ o.reproductionCooldown = 600)
    (h : organismPass cv M ds w = .ok w2) :
    ∀ o ∈ w2.organisms,
      o.radius = 5 ∧ o.maxLastEaten = 500 ∧ o.reproductionCooldown = 600 := by
  unfold organismPass at h
  cases hp : organismPassLog cv M ds w with
  | error e => simp [hp] at h
  | ok r =>
    simp only [hp, Except.ok.injEq] at h
    subst h
    obtain ⟨_, hmoves, hfinal⟩ := organismPassLog_spec cv M ds w r hp
    intro o ho
    rw [hfinal] at ho
    rcases List.mem_append.1 ho with hs | hb
    · obtain ⟨v, hv, rfl⟩ := List.mem_map.1 hs
      have hvm := (List.mem_filter.1 hv).1
      have hvm2 : v ∈ r.2 := List.mem_reverse.1 hvm
      obtain ⟨foods, orgs, res, hmv, hafter, _⟩ := hmoves v hvm2
      obtain ⟨h1, h2, h3⟩ := move_keeps_parameters cv M _ _ _ _ res hmv
      obtain ⟨p1, p2, p3⟩ := hw v.before (visit_before_mem cv M ds w r hp v hvm2)
      rw [hafter, h1, h2, h3]
      exact ⟨p1, p2, p3⟩
    · obtain ⟨v, hv, hk⟩ := List.mem_flatMap.1 hb
      obtain ⟨foods, orgs, res, hmv, _, hres⟩ := hmoves v hv
      obtain ⟨kids, hkids, hall⟩ := move_pushes cv M (ds v.index) _ _ _ res hmv
      have hsame : v.born = kids := List.append_cancel_left (hres.symm.trans hkids)
      rw [hsame] at hk
      obtain ⟨x, y, r1, r2, rfl⟩ := hall o hk
      obtain ⟨_, p2, p3⟩ := hw v.before (visit_before_mem cv M ds w r hp v hv)
      exact ⟨rfl, p2, p3⟩

/-- Every organism of a reachable world has radius 5, maximum hunger 500 and
cooldown length 600. -/
theorem reachable_parameters (cv : Canvas K) (M : MathLib K) (w : World K)
    (h : Reachable cv M w) :
    ∀ o ∈ w.organisms,
      o.radius = 5 ∧ o.maxLastEaten = 500 ∧ o.reproductionCooldown = 600 := by
  induction h with
  | init os fs =>
    intro o ho
    simp only [initialWorld, List.mem_map] at ho
    obtain ⟨i, _, rfl⟩ := ho
    exact ⟨rfl, rfl, rfl⟩
  | frame w w2 rs ds _ hstep ih =>
    exact organismPass_keeps_parameters cv M ds
      { w with foodItems := foodPass M rs w.foodItems } w2 ih hstep

/-- C18: in every world reachable from initialisation by completed frames,
every organism has radius 5, maximum hunger 500 and cooldown length 600; its
radius does not exceed 10, and in every completed `move` on it the organism
that reaches the test of line 114 has radius 5, so that test fails and the
maturity block leaves it as it is.  The initial world has 20 organisms. -/
theorem reachable_organisms_standard (cv : Canvas K) (M : MathLib K) (w : World K)
    (h : Reachable cv M w) :
    (∀ o ∈ w.organisms,
      o.radius = 5 ∧ o.maxLastEaten = 500 ∧ o.reproductionCooldown = 600 ∧
      ¬ o.radius > 10 ∧
      ∀ (d : Draws K) (foodItems : List (Food K)) (organisms : List (Organism K))
        (r : Organism K × List (Food K) × List (Organism K)),
        o.move cv M d foodItems organisms = .ok r →
        ∃ o1, o.target M foodItems = .ok o1 ∧
          (((o1.atTrigger cv M foodItems).tryReproduce d organisms).1).radius = 5 ∧
          (((o1.atTrigger cv M foodItems).tryReproduce d organisms).1).maturity =
            ((o1.atTrigger cv M foodItems).tryReproduce d organisms).1) ∧
    (∀ (os : Nat → OrganismSeed K) (fs : Nat → FoodSeed K),
      (initialWorld cv os fs).organisms.length = 20) := by
  refine ⟨?_, fun os fs => by simp [initialWorld, population]⟩
  intro o ho
  obtain ⟨h1, h2, h3⟩ := reachable_parameters cv M w h o ho
  refine ⟨h1, h2, h3, by rw [h1]; norm_num, ?_⟩
  intro d foodItems organisms r hr
  obtain ⟨o1, ht, _, _⟩ := move_ok_trigger cv M d o foodItems organisms r hr
  obtain ⟨_, _, _, _, hrad, _, _⟩ := atTrigger_fields cv M o o1 foodItems ht
  obtain ⟨b, hb⟩ := tryReproduce_shape d (o1.atTrigger cv M foodItems) organisms
  have hr5 : (((o1.atTrigger cv M foodItems).tryReproduce d organisms).1).radius = 5 := by
    rw [hb]
    dsimp only
    rw [hrad, h1]
  refine ⟨o1, ht, hr5, ?_⟩
  unfold Organism.maturity
  rw [if_neg]
  rw [hr5]
  norm_num

/-- Witness for C18: the initial world of `cornerOrganisms` and `cornerFood`
and the world one completed frame later. -/
theorem reachable_organisms_standard_witness :
    animate canvas0 axisMath (fun _ => 0) (fun _ => zeroDraws)
      (initialWorld canvas0 cornerOrganisms cornerFood) = .ok cornerWorld1 ∧
    Reachable canvas0 axisMath cornerWorld1 ∧
    (∀ o ∈ (initialWorld canvas0 cornerOrganisms cornerFood).organisms,
      o.radius = 5 ∧ o.maxLastEaten = 500 ∧ o.reproductionCooldown = 600) ∧
    (∀ o ∈ cornerWorld1.organisms,
      o.radius = 5 ∧ o.maxLastEaten = 500 ∧ o.reproductionCooldown = 600) := by
  have hstep : animate canvas0 axisMath (fun _ => 0) (fun _ => zeroDraws)
      (initialWorld canvas0 cornerOrganisms cornerFood) = .ok cornerWorld1 := by
    with_unfolding_all rfl
  have hr0 : Reachable canvas0 axisMath (initialWorld canvas0 cornerOrganisms cornerFood) :=
    Reachable.init cornerOrganisms cornerFood
  have hr1 : Reachable canvas0 axisMath cornerWorld1 :=
    Reachable.frame _ _ _ _ hr0 hstep
  have t0 := (reachable_organisms_standard canvas0 axisMath _ hr0).1
  have t1 := (reachable_organisms_standard canvas0 axisMath _ hr1).1
  exact ⟨hstep, hr1,
    fun o ho => ⟨(t0 o ho).1, (t0 o ho).2.1, (t0 o ho).2.2.1⟩,
    fun o ho => ⟨(t1 o ho).1, (t1 o ho).2.1, (t1 o ho).2.2.1⟩⟩

/-- The two results of `replicate`, by the test of line 217. -/
theorem replicate_cases (M : MathLib K) (r : K) (f : Food K) (foodItems : List (Food K)) :
    (f.radius ≥ f.replicationThreshold ∧
      (f.replicate M r foodItems).1 = { f with radius := f.radius / 2 } ∧
      ∃ x y, (f.replicate M r foodItems).2 = foodItems ++ [Food.new x y 3 f.color]) ∨
    (¬ f.radius ≥ f.replicationThreshold ∧
      (f.replicate M r foodItems).1 = f ∧ (f.replicate M r foodItems).2 = foodItems) := by
  unfold Food.replicate
  by_cases h : f.radius ≥ f.replicationThreshold
  · left
    rw [if_pos h]
    exact ⟨h, rfl, _, _, rfl⟩
  · right
    rw [if_neg h]
    exact ⟨h, rfl, rfl⟩

/-- An item of the food pass after `grow` and `replicate`, and the item pushed
if any, are as `FoodOk` says. -/
theorem processed_ok (M : MathLib K) (r : K) (f : Food K) (foodItems : List (Food K))
    (h : FoodOk f) : FoodOk ((f.grow).replicate M r foodItems).1 := by
  obtain ⟨h3, h10, hg, ht⟩ := h
  have hgrow : (f.grow).radius = f.radius + 1 / 100 := by
    unfold Food.grow
    rw [hg]
  rcases replicate_cases M r f.grow foodItems with ⟨hge, h1, _⟩ | ⟨hlt, h1, _⟩
  · rw [h1]
    have hge2 : (10 : K) ≤ f.radius + 1 / 100 := by
      have : (f.grow).replicationThreshold = 10 := ht
      rw [this, hgrow] at hge
      exact hge
    refine ⟨?_, ?_, hg, ht⟩
    · show (3 : K) ≤ (f.grow).radius / 2
      rw [hgrow]
      linarith
    · show (f.grow).radius / 2 < 10
      rw [hgrow]
      linarith
  · rw [h1]
    have hlt2 : f.radius + 1 / 100 < 10 := by
      have : (f.grow).replicationThreshold = 10 := ht
      rw [this, hgrow] at hlt
      exact not_le.1 hlt
    refine ⟨?_, ?_, hg, ht⟩
    · rw [hgrow]
      linarith
    · rw [hgrow]
      exact hlt2

/-- The loop of lines 264-268 entered at index `k` on the array
`done ++ todo ++ news`, with `k` the length of `done` and as many iterations
to go as `todo` has items: it replaces each item of `todo` by the same item
after `grow` and `replicate`, leaves `done` and `news` as they are, and appends
at most one constructor-built item of radius 3 for each item of `todo`. -/
theorem foodLoop_spec (M : MathLib K) (rs : Nat → K) :
    ∀ (todo done news : List (Food K)) (k : Nat), done.length = k →
      ∃ mid extra,
        foodLoop M rs todo.length k (done ++ todo ++ news) = done ++ mid ++ news ++ extra ∧
        List.Forall₂ (fun f g => ∃ r fs, g = ((f.grow).replicate M r fs).1) todo mid ∧
        extra.length ≤ todo.length ∧
        ∀ g ∈ extra, ∃ x y c, g = Food.new x y 3 c := by
  intro todo
  induction todo with
  | nil =>
    intro done news k _
    exact ⟨[], [], by simp [foodLoop], List.Forall₂.nil, le_refl _, by simp⟩
  | cons f todo ih =>
    intro done news k hk
    have hget : (done ++ f :: todo ++ news)[k]? = some f := by
      rw [List.append_assoc, List.cons_append]
      exact getElem?_mid done f (todo ++ news) k hk
    have hlen : (done ++ [((f.grow).replicate M (rs k) (done ++ f :: todo ++ news)).1]).length
        = k + 1 := by simp [hk]
    simp only [List.length_cons]
    rw [foodLoop]
    simp only [hget]
    rcases replicate_cases M (rs k) f.grow (done ++ f :: todo ++ news) with
      ⟨_, _, x, y, h2⟩ | ⟨_, _, h2⟩
    · rw [h2]
      have hset : (done ++ f :: todo ++ news ++ [Food.new x y 3 (f.grow).color]).set k
          ((f.grow).replicate M (rs k) (done ++ f :: todo ++ news)).1 =
          (done ++ [((f.grow).replicate M (rs k) (done ++ f :: todo ++ news)).1]) ++ todo ++
            (news ++ [Food.new x y 3 (f.grow).color]) := by
        have := set_mid done f ((f.grow).replicate M (rs k) (done ++ f :: todo ++ news)).1
          (todo ++ news ++ [Food.new x y 3 (f.grow).color]) k hk
        simpa using this
      rw [hset]
      obtain ⟨mid, extra, he, hf, hl, hall⟩ := ih _ (news ++ [Food.new x y 3 (f.grow).color])
        (k + 1) hlen
      refine ⟨((f.grow).replicate M (rs k) (done ++ f :: todo ++ news)).1 :: mid,
        Food.new x y 3 (f.grow).color :: extra, ?_, ?_, ?_, ?_⟩
      · rw [he]
        simp
      · exact List.Forall₂.cons ⟨_, _, rfl⟩ hf
      · simp only [List.length_cons]
        omega
      · intro g hg
        rcases List.mem_cons.1 hg with rfl | hg
        · exact ⟨_, _, _, rfl⟩
        · exact hall g hg
    · rw [h2]
      have hset : (done ++ f :: todo ++ news).set k
          ((f.grow).replicate M (rs k) (done ++ f :: todo ++ news)).1 =
          (done ++ [((f.grow).replicate M (rs k) (done ++ f :: todo ++ news)).1]) ++ todo ++
            news := by
        have := set_mid done f ((f.grow).replicate M (rs k) (done ++ f :: todo ++ news)).1
          (todo ++ news) k hk
        simpa using this
      rw [hset]
      obtain ⟨mid, extra, he, hf, hl, hall⟩ := ih _ news (k + 1) hlen
      refine ⟨((f.grow).replicate M (rs k) (done ++ f :: todo ++ news)).1 :: mid,
        extra, ?_, ?_, ?_, hall⟩
      · rw [he]
        simp
      · exact List.Forall₂.cons ⟨_, _, rfl⟩ hf
      · omega


/-- C20: the food pass of `animate` on a collection whose items all have growth
rate 1/100, threshold 10 and a radius from 3 up to, not including, 10: the
result is the items of the start, each after one `grow` and one `replicate`, in
their order, followed by the items pushed, at most one for each item of the
start, each built by the constructor with radius 3 and not grown; every item of
the result again has growth rate 1/100, threshold 10 and a radius from 3 up to
10; the count does not fall and at most doubles.  The 50 initial items have
radius 3 and satisfy the condition. -/
theorem food_pass_keeps_radius_range (M : MathLib K) (rs : Nat → K)
    (foodItems : List (Food K)) (hok : ∀ f ∈ foodItems, FoodOk f) :
    (∀ f ∈ foodPass M rs foodItems, FoodOk f) ∧
    foodItems.length ≤ (foodPass M rs foodItems).length ∧
    (foodPass M rs foodItems).length ≤ 2 * foodItems.length ∧
    (∃ mid extra, foodPass M rs foodItems = mid ++ extra ∧
      List.Forall₂ (fun f g => ∃ r fs, g = ((f.grow).replicate M r fs).1) foodItems mid ∧
      extra.length ≤ foodItems.length ∧
      ∀ g ∈ extra, ∃ x y c, g = Food.new x y 3 c) ∧
    (∀ (cv : Canvas K) (os : Nat → OrganismSeed K) (fs : Nat → FoodSeed K),
      (initialWorld cv os fs).foodItems.length = 50 ∧
      ∀ f ∈ (initialWorld cv os fs).foodItems, f.radius = 3 ∧ FoodOk f) := by
  obtain ⟨mid, extra, he, hf, hl, hall⟩ := foodLoop_spec M rs foodItems [] [] 0 rfl
  have he2 : foodPass M rs foodItems = mid ++ extra := by
    unfold foodPass
    simpa using he
  have hmidlen : mid.length = foodItems.length := (List.Forall₂.length_eq hf).symm
  refine ⟨?_, ?_, ?_, ⟨mid, extra, he2, hf, hl, hall⟩, ?_⟩
  · intro g hg
    rw [he2] at hg
    rcases List.mem_append.1 hg with hm | hx
    · obtain ⟨f, hfm, r, fs, rfl⟩ : ∃ f ∈ foodItems, ∃ r fs,
          g = ((f.grow).replicate M r fs).1 := by
        clear he he2 hmidlen hg hok hl hall
        induction hf with
        | nil => simp at hm
        | cons hab _ ih =>
          rcases List.mem_cons.1 hm with rfl | hm2
          · exact ⟨_, List.mem_cons_self _ _, hab⟩
          · obtain ⟨f, hfm, hrest⟩ := ih hm2
            exact ⟨f, List.mem_cons_of_mem _ hfm, hrest⟩
      exact processed_ok M r f fs (hok f hfm)
    · obtain ⟨x, y, c, rfl⟩ := hall g hx
      refine ⟨le_refl _, ?_, rfl, rfl⟩
      show (3 : K) < 10
      norm_num
  · rw [he2, List.length_append, hmidlen]
    omega
  · rw [he2, List.length_append, hmidlen]
    omega
  · intro cv os fs
    refine ⟨by simp [initialWorld, foodCount], ?_⟩
    intro f hfm
    simp only [initialWorld, List.mem_map] at hfm
    obtain ⟨i, _, rfl⟩ := hfm
    refine ⟨rfl, le_refl _, ?_, rfl, rfl⟩
    show (3 : K) < 10
    norm_num

/-- Witness for C20: an item of radius 9.99 and an item of radius 3; the first
splits, the second only grows, and the pushed item is not processed. -/
theorem food_pass_keeps_radius_range_witness :
    (∀ f ∈ [ripeFood, foodAt 101], FoodOk f) ∧
    foodPass axisMath (fun _ => 0) [ripeFood, foodAt 101] =
      [Food.new 100 100 5 "green", Food.new 101 100 (301 / 100) "green",
        Food.new 120 100 3 "green"] ∧
    (∀ f ∈ foodPass axisMath (fun _ => 0) [ripeFood, foodAt 101], FoodOk f) ∧
    (foodPass axisMath (fun _ => 0) [ripeFood, foodAt 101]).length ≤
      2 * [ripeFood, foodAt 101].length := by
  have hok : ∀ f ∈ [ripeFood, foodAt 101], FoodOk f := by
    intro f hf
    simp only [List.mem_cons, List.mem_singleton, List.not_mem_nil, or_false] at hf
    rcases hf with rfl | rfl <;>
      norm_num [FoodOk, ripeFood, foodAt, Food.new]
  have t := food_pass_keeps_radius_range axisMath (fun _ => 0) [ripeFood, foodAt 101] hok
  exact ⟨hok, by with_unfolding_all rfl, t.1, t.2.2.1⟩

/-- C6 (the claim fails): a food item of radius 16 at (0, 0), with the draws
1/8 and 1/4096.  The new item is pushed at (32 * cos, 32 * sin) for the host's
cosine and sine of the angle, which are doubles; the sum of their squares is
not 1, so the squared distance of the new centre from the parent is not
`(2 * 16) ^ 2`: the distance is not exactly 32. -/
theorem replicate_distance_not_exact :
    bigFood.replicationThreshold = 10 ∧ 10 ≤ bigFood.radius ∧
    (bigFood.replicate hostAtEighth (1 / 8) []).2 =
      [Food.new (6369051672525773 / 281474976710656) (1592262918131443 / 70368744177664)
        3 "green"] ∧
    ¬ ((6369051672525773 / 281474976710656 - bigFood.x) ^ 2 +
        (1592262918131443 / 70368744177664 - bigFood.y) ^ 2 = (2 * bigFood.radius) ^ 2) ∧
    (bigFood.replicate hostAtSmallAngle (1 / 4096) []).2 =
      [Food.new (4503594328668019 / 140737488355328)
        (7074234977634093 / 144115188075855872) 3 "green"] ∧
    ¬ ((4503594328668019 / 140737488355328 - bigFood.x) ^ 2 +
        (7074234977634093 / 144115188075855872 - bigFood.y) ^ 2 =
      (2 * bigFood.radius) ^ 2) := by
  refine ⟨rfl, by norm_num [bigFood, Food.new], by with_unfolding_all rfl, ?_,
    by with_unfolding_all rfl, ?_⟩
  · norm_num [bigFood, Food.new]
  · norm_num [bigFood, Food.new]

/-- C6 (amended): for a food item whose radius is at least the replication
threshold 10, `replicate` halves the radius, writes no other field of the
item, and appends exactly one item, built by the constructor with radius 3, the
same color and the centre given by the expressions of lines 221 and 222 on the
host's cosine and sine of the drawn angle. -/
theorem replicate_appends_one (M : MathLib K) (r : K) (f : Food K)
    (foodItems : List (Food K)) (hthr : f.replicationThreshold = 10)
    (hrad : 10 ≤ f.radius) :
    (f.replicate M r foodItems).1 = { f with radius := f.radius / 2 } ∧
    (f.replicate M r foodItems).1.x = f.x ∧ (f.replicate M r foodItems).1.y = f.y ∧
    (f.replicate M r foodItems).2 =
      foodItems ++ [Food.new (f.x + M.cos (r * M.pi * 2) * (f.radius * 2))
        (f.y + M.sin (r * M.pi * 2) * (f.radius * 2)) 3 f.color] ∧
    (f.replicate M r foodItems).2.length = foodItems.length + 1 := by
  have hge : f.radius ≥ f.replicationThreshold := by rw [hthr]; exact hrad
  have hrep : f.replicate M r foodItems =
      ({ f with radius := f.radius / 2 },
        foodItems ++ [Food.new (f.x + M.cos (r * M.pi * 2) * (f.radius * 2))
          (f.y + M.sin (r * M.pi * 2) * (f.radius * 2)) 3 f.color]) := by
    unfold Food.replicate
    rw [if_pos hge]
  rw [hrep]
  exact ⟨rfl, rfl, rfl, rfl, by simp⟩

/-- Witness for the amended C6: a food item of radius 9.99 grown once has radius
10; the next `replicate` leaves it with radius 5 and appends one item of radius
3, for the angle 0 at (120, 100). -/
theorem replicate_appends_one_witness :
    (ripeFood.grow).radius = 10 ∧
    ((ripeFood.grow).replicate axisMath 0 [ripeFood]).1 = Food.new 100 100 5 "green" ∧
    ((ripeFood.grow).replicate axisMath 0 [ripeFood]).2 =
      [ripeFood, Food.new 120 100 3 "green"] ∧
    ((ripeFood.grow).replicate axisMath 0 [ripeFood]).1 =
      { ripeFood.grow with radius := (ripeFood.grow).radius / 2 } ∧
    ((ripeFood.grow).replicate axisMath 0 [ripeFood]).2.length = [ripeFood].length + 1 := by
  have hg : (ripeFood.grow).radius = 10 := by with_unfolding_all rfl
  have t := replicate_appends_one axisMath 0 ripeFood.grow [ripeFood] rfl
    (le_of_eq hg.symm)
  exact ⟨hg, by with_unfolding_all rfl, by with_unfolding_all rfl, t.1, t.2.2.2.2⟩

/-- C7 (amended): for an organism that is not full and a food collection with
an item closer than the field of view, the scan targets an item `f` of the
collection that is inside the field of view and nearest, `move` completes, and
the position after it is the result of lines 70 and 71 on the heading set
towards `f`: the old coordinates plus the host's cosine and sine of the angle
`atan2 (f.y - y) (f.x - x)`. -/
theorem seek_steps_toward_nearest (cv : Canvas K) (M : MathLib K) (d : Draws K)
    (o : Organism K) (foodItems : List (Food K)) (organisms : List (Organism K))
    (hfull : o.isFull = false)
    (hfov : ∃ g ∈ foodItems, M.hypot (o.x - g.x) (o.y - g.y) < FOV_RADIUS) :
    ∃ f r, o.scan M foodItems = some f ∧ f ∈ foodItems ∧
      M.hypot (o.x - f.x) (o.y - f.y) < FOV_RADIUS ∧
      (∀ g ∈ foodItems,
        M.hypot (o.x - f.x) (o.y - f.y) ≤ M.hypot (o.x - g.x) (o.y - g.y)) ∧
      o.move cv M d foodItems organisms = .ok r ∧
      r.1.x = o.x + M.cos (M.atan2 (f.y - o.y) (f.x - o.x)) ∧
      r.1.y = o.y + M.sin (M.atan2 (f.y - o.y) (f.x - o.x)) := by
  obtain ⟨f, hs⟩ := (scan_spec M o foodItems).2 hfov
  obtain ⟨hm, hlt, hmin⟩ := (scan_spec M o foodItems).1 f hs
  obtain ⟨r, hr⟩ := (move_ok_iff cv M d o foodItems organisms).2 (Or.inl hfull)
  obtain ⟨o1, c0, s0, l, full, b, t, ht, hshape⟩ :=
    move_shape cv M d o foodItems organisms r hr
  have ho1 : o1 = { o with dx := M.cos (M.atan2 (f.y - o.y) (f.x - o.x)),
                           dy := M.sin (M.atan2 (f.y - o.y) (f.x - o.x)) } := by
    rw [target_of_not_full M o foodItems hfull] at ht
    rw [← Except.ok.inj ht]
    unfold Organism.seek
    rw [hs]
  refine ⟨f, r, hs, hm, hlt, hmin, hr, ?_, ?_⟩
  · rw [hshape, ho1]
  · rw [hshape, ho1]

/-- Witness for the amended C7: the organism at (100, 100) targets the item at
(103, 100) and ends the update at (101, 100). -/
theorem seek_steps_toward_nearest_witness :
    org0.isFull = false ∧
    (∃ g ∈ [foodAt 103],
      axisMath.hypot (org0.x - g.x) (org0.y - g.y) < FOV_RADIUS) ∧
    org0.scan axisMath [foodAt 103] = some (foodAt 103) ∧
    org0.move canvas0 axisMath zeroDraws [foodAt 103] [org0] =
      .ok (stepped { org0 with lastEaten := 2, isFull := true }, [], [org0]) ∧
    (stepped { org0 with lastEaten := 2, isFull := true }).x =
      org0.x + axisMath.cos
        (axisMath.atan2 ((foodAt 103).y - org0.y) ((foodAt 103).x - org0.x)) ∧
    (stepped { org0 with lastEaten := 2, isFull := true }).y =
      org0.y + axisMath.sin
        (axisMath.atan2 ((foodAt 103).y - org0.y) ((foodAt 103).x - org0.x)) := by
  have hfov : ∃ g ∈ [foodAt 103],
      axisMath.hypot (org0.x - g.x) (org0.y - g.y) < FOV_RADIUS :=
    ⟨foodAt 103, by simp, by
      norm_num [axisMath, org0, foodAt, Organism.new, Food.new, FOV_RADIUS, abs_of_neg]⟩
  have hscan : org0.scan axisMath [foodAt 103] = some (foodAt 103) := by
    with_unfolding_all rfl
  have hmove : org0.move canvas0 axisMath zeroDraws [foodAt 103] [org0] =
      .ok (stepped { org0 with lastEaten := 2, isFull := true }, [], [org0]) := by
    with_unfolding_all rfl
  obtain ⟨f, r, hs, _, _, _, hr, hx, hy⟩ :=
    seek_steps_toward_nearest canvas0 axisMath zeroDraws org0 [foodAt 103] [org0] rfl hfov
  have hf : f = foodAt 103 := by
    rw [hscan] at hs
    exact (Option.some.inj hs).symm
  have hres : r = (stepped { org0 with lastEaten := 2, isFull := true }, [], [org0]) := by
    rw [hmove] at hr
    exact (Except.ok.inj hr).symm
  subst hf hres
  exact ⟨rfl, hfov, hscan, hmove, hx, hy⟩

/-- C8 (amended): the movement step (lines 70-79) assigns `x + dx` to `x` and
`y + dy` to `y` and does not write the position again; it leaves the radius as
it is; and it negates `dx` exactly when, with the new `x`, the test
`x + radius > width || x - radius < 0` of line 74 holds, and `dy` exactly when
the test of line 77 holds with the new `y`. -/
theorem movement_reflects_without_clamp (cv : Canvas K) (o : Organism K) :
    ((o.advance).bounce cv).x = o.x + o.dx ∧
    ((o.advance).bounce cv).y = o.y + o.dy ∧
    ((o.advance).bounce cv).radius = o.radius ∧
    ((o.advance).bounce cv).dx =
      (if ((o.advance).bounce cv).x + o.radius > cv.width ∨
          ((o.advance).bounce cv).x - o.radius < 0 then -o.dx else o.dx) ∧
    ((o.advance).bounce cv).dy =
      (if ((o.advance).bounce cv).y + o.radius > cv.height ∨
          ((o.advance).bounce cv).y - o.radius < 0 then -o.dy else o.dy) := by
  have hxe : ((o.advance).bounce cv).x = o.x + o.dx := by
    unfold Organism.bounce Organism.advance
    dsimp only
    split_ifs <;> rfl
  have hye : ((o.advance).bounce cv).y = o.y + o.dy := by
    unfold Organism.bounce Organism.advance
    dsimp only
    split_ifs <;> rfl
  refine ⟨hxe, hye, ?_, ?_, ?_⟩
  · unfold Organism.bounce Organism.advance
    dsimp only
    split_ifs <;> rfl
  · rw [hxe]
    unfold Organism.bounce Organism.advance
    dsimp only
    split_ifs <;> rfl
  · rw [hye]
    unfold Organism.bounce Organism.advance
    dsimp only
    split_ifs <;> rfl

/-- Witness for the amended C8: the organism whose circle touches the right
edge, with heading (1, 0), ends the movement step at x = 796, where the test of
line 74 holds, with the x velocity negated and the position left there. -/
theorem movement_reflects_without_clamp_witness :
    (({ wallOrg with dx := 1, dy := 0 } : Organism ℚ).advance.bounce canvas0).x = 796 ∧
    (({ wallOrg with dx := 1, dy := 0 } : Organism ℚ).advance.bounce canvas0).dx = -1 ∧
    (({ wallOrg with dx := 1, dy := 0 } : Organism ℚ).advance.bounce canvas0).x =
      wallOrg.x + 1 ∧
    (({ wallOrg with dx := 1, dy := 0 } : Organism ℚ).advance.bounce canvas0).radius =
      wallOrg.radius := by
  have t := movement_reflects_without_clamp canvas0 ({ wallOrg with dx := 1, dy := 0 })
  exact ⟨by with_unfolding_all rfl, by with_unfolding_all rfl, t.1, t.2.2.1⟩

/-- C19 (what the code does): an organism that is not full eats the only food
item in its first update and ends it full with hunger timer 2; its second
update finds the food collection empty and does not complete: the `reduce` of
line 57 throws.  There is no state after the second update, and none after the
150th. -/
theorem fullness_cut_short_without_food :
    org0.isFull = false ∧
    org0.updateAt canvas0 axisMath lastMealInputs 0 =
      .ok (stepped { org0 with lastEaten := 2, isFull := true }, [], [org0]) ∧
    org0.afterUpdates canvas0 axisMath lastMealInputs 1 =
      .ok (stepped { org0 with lastEaten := 2, isFull := true }) ∧
    (lastMealInputs 1).foodItems = [] ∧
    org0.updateAt canvas0 axisMath lastMealInputs 1 = .error .reduceOfEmptyArray ∧
    org0.afterUpdates canvas0 axisMath lastMealInputs 2 = .error .reduceOfEmptyArray ∧
    org0.afterUpdates canvas0 axisMath lastMealInputs 150 = .error .reduceOfEmptyArray := by
  refine ⟨rfl, by with_unfolding_all rfl, by with_unfolding_all rfl, rfl,
    by with_unfolding_all rfl, by with_unfolding_all rfl, by with_unfolding_all rfl⟩

end Theorems

end Ecosystem
